import Mathlib

/-
Verification of the ladybug-lang interpreter (lexer, parser, evaluator).

The definitions below are a shallow embedding of the TypeScript sources:
  src/lexer.mts      (Lexer)
  src/parser.mts     (Parser; see the note in the parser section)
  src/callstack.mts  (CallStack)
  src/ladybug.mts    (Ladybug evaluator)

Conventions of the embedding:
* Scanning positions: the sources keep an immutable text plus an integer
  position that only ever increases; here the not-yet-consumed suffix is
  passed instead (cur() is the head of the suffix, next() drops it,
  end() is emptiness).  cur() past the end returns the empty string in
  the source; that case is represented by the list being empty.
* JavaScript numbers: values store their contents as strings and convert
  through Number() and String() on demand.  Arithmetic is modelled by
  unnormalized rationals (JsNum).  This is exact for all the decimal
  contents that the claims exercise; IEEE-754 rounding, NaN propagation
  and JavaScript decimal printing of non-integers are outside the model
  and are not exercised by any theorem below.
* Exceptions: a thrown Error is the err outcome.  State mutated before a
  throw stays mutated, as for a TypeScript instance whose method threw.
* Unbounded loops and recursion (the evaluator's WHILE loop, function
  calls and the lexer's multiline-comment loop) take a fuel argument;
  running out of fuel is the oof outcome, distinct from errors.  The
  multiline-comment loop additionally gets a total companion whose
  agreement with the fuel-indexed transcription is proved (claim C6).
-/
set_option maxRecDepth 10000

namespace Ladybug

/-! ## JavaScript numbers -/
/-- Unnormalized rational standing in for a JavaScript number value.
A denominator of zero stands in for the infinities and NaN. -/
structure JsNum where
  num : Int
  den : Nat
deriving DecidableEq

def JsNum.add (a b : JsNum) : JsNum :=
  ⟨a.num * b.den + b.num * a.den, a.den * b.den⟩

def JsNum.sub (a b : JsNum) : JsNum :=
  ⟨a.num * b.den - b.num * a.den, a.den * b.den⟩

def JsNum.mul (a b : JsNum) : JsNum :=
  ⟨a.num * b.num, a.den * b.den⟩

def JsNum.div (a b : JsNum) : JsNum :=
  ⟨a.num * b.den * (if b.num < 0 then -1 else 1), a.den * b.num.natAbs⟩

/-- Truncation toward zero, as JavaScript Math.trunc on a finite number. -/
def JsNum.trunc (a : JsNum) : Int :=
  a.num.tdiv a.den

/-- The JavaScript remainder x % y = x - y * trunc(x / y). -/
def JsNum.mod (a b : JsNum) : JsNum :=
  a.sub (b.mul ⟨(a.div b).trunc, 1⟩)

def JsNum.neg (a : JsNum) : JsNum :=
  ⟨-a.num, a.den⟩

def JsNum.beq (a b : JsNum) : Bool :=
  a.num * b.den == b.num * a.den

def JsNum.blt (a b : JsNum) : Bool :=
  decide (a.num * b.den < b.num * a.den)

def JsNum.ble (a b : JsNum) : Bool :=
  decide (a.num * b.den ≤ b.num * a.den)

def JsNum.isZero (a : JsNum) : Bool :=
  a.num == 0 && a.den != 0

/-! ## Decimal reading and printing (Number() and String() on the
contents exercised by the claims) -/
def isDigitCh (c : Char) : Bool :=
  48 ≤ c.toNat && c.toNat ≤ 57

def digitVal (c : Char) : Nat :=
  c.toNat - 48

def digitsToNat : List Char → Nat → Nat
  | [], acc => acc
  | c :: rest, acc => digitsToNat rest (acc * 10 + digitVal c)

def spanDigits : List Char → List Char × List Char
  | [] => ([], [])
  | c :: rest =>
      if isDigitCh c then
        let (ds, r) := spanDigits rest
        (c :: ds, r)
      else ([], c :: rest)

/-- Core of Number(): unsigned decimal with an optional fractional part.
Returns none when the text is not of that shape. -/
def parseNumCore (cs : List Char) : Option JsNum :=
  let (ds, rest) := spanDigits cs
  match rest with
  | [] => if ds.isEmpty then none else some ⟨digitsToNat ds 0, 1⟩
  | '.' :: rest2 =>
      let (fs, rest3) := spanDigits rest2
      if rest3.isEmpty && !(ds.isEmpty && fs.isEmpty) then
        some ⟨digitsToNat ds 0 * (10 ^ fs.length) + digitsToNat fs 0, 10 ^ fs.length⟩
      else none
  | _ => none

/-- Number() on the string contents the interpreter produces: an optional
minus sign followed by a decimal numeral.  Other strings (which yield NaN
or special values in JavaScript) are not exercised by any claim and are
mapped to zero. -/
def parseNum (s : String) : JsNum :=
  match s.data with
  | '-' :: rest => (parseNumCore rest).getD ⟨0, 1⟩ |>.neg
  | cs => (parseNumCore cs).getD ⟨0, 1⟩

def natDigitChar (n : Nat) : Char :=
  Char.ofNat (48 + n)

def natToStrGo : Nat → Nat → List Char → List Char
  | 0, _, acc => acc
  | f + 1, n, acc =>
      if n < 10 then natDigitChar n :: acc
      else natToStrGo f (n / 10) (natDigitChar (n % 10) :: acc)

def natToStr (n : Nat) : String :=
  String.mk (natToStrGo (n + 1) n [])

def intToStr : Int → String
  | .ofNat n => natToStr n
  | .negSucc n => "-" ++ natToStr (n + 1)

/-- String() on a number.  Integral values print as plain decimal
numerals, exactly as in JavaScript; every value printed by the claims is
integral.  Printing of non-integral values (JavaScript shortest-decimal
notation) is outside the model. -/
def printNum (q : JsNum) : String :=
  if q.den == 0 then
    if q.num > 0 then "Infinity" else if q.num < 0 then "-Infinity" else "NaN"
  else if q.num.emod q.den == 0 then intToStr (q.num.tdiv q.den)
  else intToStr q.num ++ "/" ++ natToStr q.den

/-! ## Values (returnvalue.mts) -/
inductive ValueType
  | NUM
  | STR
  | VOID
deriving DecidableEq

/-- A value returned from an expression; the content is kept as a string
even for numbers, as in the source. -/
structure ReturnValue where
  type : ValueType
  content : String
deriving DecidableEq

/-- new ReturnValue() with the default arguments. -/
def ReturnValue.void : ReturnValue := ⟨.VOID, ""⟩

def numV (s : String) : ReturnValue := ⟨.NUM, s⟩

def strV (s : String) : ReturnValue := ⟨.STR, s⟩

/-! ## Tokens (token.mts) -/
inductive TokenType
  | NUM | STR | TRUE | FALSE
  | ID | IF | ELSE | WHILE | FUNCTION | RETURN
  | ASSIGN | ASSIGN_ADD | ASSIGN_SUB | ASSIGN_MUL | ASSIGN_DIV | ASSIGN_MOD
  | COMMA | SEMICOL
  | LCBRACE | RCBRACE | LBRACE | RBRACE
  | ADD | SUB | MUL | DIV | MOD
  | AND | OR | NOT
  | EQ | NEQ | LT | LTE | GT | GTE
  | ERR
deriving DecidableEq

structure Token where
  type : TokenType
  content : String
deriving DecidableEq

/-! ## Lexer (lexer.mts) -/
/-- Keyword table of the lexer. -/
def keywords (s : String) : Option TokenType :=
  match s with
  | "if" => some .IF
  | "else" => some .ELSE
  | "while" => some .WHILE
  | "function" => some .FUNCTION
  | "true" => some .TRUE
  | "false" => some .FALSE
  | "return" => some .RETURN
  | _ => none

/-- Special-token table of the lexer; every non-empty prefix of a key is
itself a key, possibly mapped to the error type. -/
def specialTokens (s : String) : Option TokenType :=
  match s with
  | "=" => some .ASSIGN
  | "==" => some .EQ
  | ";" => some .SEMICOL
  | "\x7b" => some .LCBRACE
  | "\x7d" => some .RCBRACE
  | "(" => some .LBRACE
  | ")" => some .RBRACE
  | "+" => some .ADD
  | "+=" => some .ASSIGN_ADD
  | "-" => some .SUB
  | "-=" => some .ASSIGN_SUB
  | "*" => some .MUL
  | "*=" => some .ASSIGN_MUL
  | "/" => some .DIV
  | "/=" => some .ASSIGN_DIV
  | "%" => some .MOD
  | "%=" => some .ASSIGN_MOD
  | "&" => some .ERR
  | "&&" => some .AND
  | "|" => some .ERR
  | "||" => some .OR
  | "!" => some .NOT
  | "!=" => some .NEQ
  | "<" => some .LT
  | "<=" => some .LTE
  | ">" => some .GT
  | ">=" => some .GTE
  | "," => some .COMMA
  | "//" => some .ERR
  | "/*" => some .ERR
  | _ => none

def inCharRange (c start e : Char) : Bool :=
  start.toNat ≤ c.toNat && c.toNat ≤ e.toNat

def isAlpha (c : Char) : Bool :=
  inCharRange c 'a' 'z' || inCharRange c 'A' 'Z'

def isNumCh (c : Char) : Bool :=
  inCharRange c '0' '9'

def isIDChar (c : Char) (start : Bool) : Bool :=
  isAlpha c || c == '_' || (!start && isNumCh c)

def isSpace (c : Char) : Bool :=
  c == ' ' || c == '\t' || c == '\r' || c == '\n'

/-- Loop of readID: consume identifier characters. -/
def readIDCore : List Char → List Char × List Char
  | [] => ([], [])
  | c :: rest =>
      if isIDChar c false then
        let (s, r) := readIDCore rest
        (c :: s, r)
      else ([], c :: rest)

/-- readID: read an identifier or keyword token. -/
def readID (rem : List Char) : Token × List Char :=
  let (cs, rest) := readIDCore rem
  let content := String.mk cs
  match keywords content with
  | some t => (⟨t, ""⟩, rest)
  | none => (⟨.ID, content⟩, rest)

/-- Loop of readNum: digits with at most one dot. -/
def readNumCore (foundDot : Bool) : List Char → List Char × List Char
  | [] => ([], [])
  | c :: rest =>
      if isNumCh c then
        let (s, r) := readNumCore foundDot rest
        (c :: s, r)
      else if !foundDot && c == '.' then
        let (s, r) := readNumCore true rest
        (c :: s, r)
      else ([], c :: rest)

/-- escapeChar: resolve one backslash escape. -/
def escapeChar (c : Char) : Char :=
  if c == 'n' then '\n' else if c == 't' then '\t' else c

/-- Loop of readString, after the opening delimiter has been consumed.
On success returns the decoded content together with the remaining input,
which still starts with the closing delimiter: the source never consumes
it (the main loop will dispatch on it again). -/
def readStringCore (delim : Char) : List Char → Except String (List Char × List Char)
  | [] => .error "String not closed before end of file"
  | c :: rest =>
      if c == delim then .ok ([], c :: rest)
      else if c == '\\' then
        match rest with
        | [] => .error "String not closed before end of file"
        | d :: rest2 =>
            match readStringCore delim rest2 with
            | .error e => .error e
            | .ok (s, r) => .ok (escapeChar d :: s, r)
      else
        match readStringCore delim rest with
        | .error e => .error e
        | .ok (s, r) => .ok (c :: s, r)

/-- Greedy loop of readSpecialToken: extend the token while the table
still has an entry for the extension. -/
def readSpecialCore (content : String) : List Char → String × List Char
  | [] => (content, [])
  | c :: rest =>
      match specialTokens (content.push c) with
      | some _ => readSpecialCore (content.push c) rest
      | none => (content, c :: rest)

/-- readLineComment: skip to just past the next newline (or to the end). -/
def readLineComment : List Char → List Char
  | [] => []
  | c :: rest => if c == '\n' then rest else readLineComment rest

/-- readMultilineComment, transcribed with fuel: the source loop keeps
reading until the previously consumed character is a star and the current
one a slash; at the end of the input cur() returns the empty string (here
none) and the loop keeps running forever, so no amount of fuel makes it
finish (claim C6). -/
def readMultilineCommentF : Nat → Option Char → List Char → Option (List Char)
  | 0, _, _ => none
  | f + 1, last, rem =>
      if last = some '*' ∧ rem.head? = some '/' then some rem.tail
      else
        match rem with
        | [] => readMultilineCommentF f none []
        | c :: rest => readMultilineCommentF f (some c) rest

/-- Total companion of readMultilineComment: none means the source loop
never terminates (no closing marker ahead); some gives the input left
after the comment, the terminator consumed.  Agreement with the
fuel-indexed transcription is proved in claim C6. -/
def readMultilineComment : Option Char → List Char → Option (List Char)
  | last, rem =>
      if last = some '*' ∧ rem.head? = some '/' then some rem.tail
      else
        match rem with
        | [] => none
        | c :: rest => readMultilineComment (some c) rest

/-- Result of Lexer.read.  ok and err are the source's normal return and
thrown error; diverge marks an input on which the source's
multiline-comment loop never terminates; oof is exhaustion of the fuel of
the main scanning loop (never reached with fuel above the input length,
as proved in claim C6). -/
inductive LexRes
  | ok
  | err (msg : String)
  | diverge (rem : List Char)
  | oof
deriving DecidableEq

/-- One iteration of the main loop of Lexer.read, the continuation of
the loop passed as next.  The token list accumulated so far is returned
even when the scan faults, matching the tokens instance field of the
source, which keeps the tokens pushed before a throw. -/
def lexGoStep (next : List Char → List Token → List Token × LexRes) :
    List Char → List Token → List Token × LexRes
  | [], acc => (acc, .ok)
  | c :: rest, acc =>
      if isIDChar c true then
        let (t, rem) := readID (c :: rest)
        next rem (acc ++ [t])
      else if isSpace c then
        next rest acc
      else if isNumCh c then
        let (cs, rem) := readNumCore false (c :: rest)
        next rem (acc ++ [⟨.NUM, String.mk cs⟩])
      else if c == '\'' || c == '"' then
        match readStringCore c rest with
        | .error e => (acc, .err e)
        | .ok (cs, rem) => next rem (acc ++ [⟨.STR, String.mk cs⟩])
      else
        let (content, rem) := readSpecialCore "" (c :: rest)
        if content = "" then (acc, .err ("Unexpected character " ++ String.mk [c]))
        else if content = "//" then next (readLineComment rem) acc
        else if content = "/*" then
          match readMultilineComment none rem with
          | some rem2 => next rem2 acc
          | none => (acc, .diverge rem)
        else
          match specialTokens content with
          | some .ERR => (acc, .err ("Undefined token " ++ content))
          | some t => next rem (acc ++ [⟨t, ""⟩])
          | none => (acc, .err ("Undefined token " ++ content))

/-- Main loop of Lexer.read, one fuel unit per iteration.  The recursion
is spelled with Nat.rec so that the kernel unfolds each iteration in
constant work. -/
def lexGo (fuel : Nat) : List Char → List Token → List Token × LexRes :=
  Nat.rec (motive := fun _ => List Char → List Token → List Token × LexRes)
    (fun _ acc => (acc, .oof)) (fun _ ih => lexGoStep ih) fuel

/-- Lexer.read on a whole input string.  The fuel bound input length plus
one is sufficient for the main loop, as proved in claim C6. -/
def lexRead (code : String) : List Token × LexRes :=
  lexGo (code.data.length + 1) code.data []

/-! ## Parse nodes (parsenode.mts) -/
inductive NodeType
  | ID | NUM | STR
  | ASSIGN | ASSIGN_ADD | ASSIGN_SUB | ASSIGN_MUL | ASSIGN_DIV | ASSIGN_MOD
  | ADD | SUB | MUL | DIV | MOD | NEG
  | AND | OR | NOT
  | EQ | NEQ | LT | LTE | GT | GTE
  | IF | WHILE | RETURN
  | CALL | FUNCTION
  | BLOCK
  | ERR
deriving DecidableEq

inductive ParseNode
  | mk (type : NodeType) (content : String) (children : List ParseNode)

def ParseNode.type : ParseNode → NodeType
  | .mk t _ _ => t

def ParseNode.content : ParseNode → String
  | .mk _ c _ => c

def ParseNode.children : ParseNode → List ParseNode
  | .mk _ _ ch => ch

/-! ## Parser (parser.mts)

The snapshot of the repository holds the parser only as two successive
revisions, and the more complete one (the one with the full precedence
cascade, functions and return statements used by the evaluator) has three
members whose literal text cannot be what the running program contains:
its accept helper calls itself on the same arguments, its brace-forcing
path expects the wrong brace constant, and its call-argument loop never
clears its first-iteration flag even though the README documents calls
such as f(4, 5).  Those three spots are modelled from the spec (sections
4.2 and 6) and the README; everything else transcribes the revision.
The generic combinators parseBinaryLeft and parseBinaryRight of the
source are instantiated once per precedence level below, with identical
behavior. -/
def parserCur (ts : List Token) : Token :=
  ts.headD ⟨.ERR, ""⟩

/-- Modelled from the spec: accept checks whether the current token has
one of the given types.  The newest parser revision under src defines
accept in terms of itself on the same arguments; the earlier revision and
spec section 4.2 give this meaning. -/
def parserAccept (ts : List Token) (types : List TokenType) : Bool :=
  types.contains (parserCur ts).type

def parserExpect (ts : List Token) (types : List TokenType) : Except String Unit :=
  if parserAccept ts types then .ok () else .error "Unexpected token"

/-- The parser functions at one fuel level.  Each source method of the
Parser class is one field; the loops of the generic combinators and of
the block, argument and binary-level parsers are the Go fields, carrying
their accumulators. -/
structure ParserFns where
  block : List Token → Except String (ParseNode × List Token)
  blockGo : List ParseNode → List Token → Except String (ParseNode × List Token)
  line : List Token → Except String (ParseNode × List Token)
  lineOrBlock : Bool → List Token → Except String (ParseNode × List Token)
  ifP : List Token → Except String (ParseNode × List Token)
  whileP : List Token → Except String (ParseNode × List Token)
  functionP : List Token → Except String (ParseNode × List Token)
  functionArgs : Bool → List String → List Token → Except String (List String × List Token)
  returnP : List Token → Except String (ParseNode × List Token)
  expr : List Token → Except String (ParseNode × List Token)
  assign : List Token → Except String (ParseNode × List Token)
  orP : List Token → Except String (ParseNode × List Token)
  orGo : ParseNode → List Token → Except String (ParseNode × List Token)
  andP : List Token → Except String (ParseNode × List Token)
  andGo : ParseNode → List Token → Except String (ParseNode × List Token)
  eqP : List Token → Except String (ParseNode × List Token)
  eqGo : ParseNode → List Token → Except String (ParseNode × List Token)
  ineqP : List Token → Except String (ParseNode × List Token)
  ineqGo : ParseNode → List Token → Except String (ParseNode × List Token)
  sumP : List Token → Except String (ParseNode × List Token)
  sumGo : ParseNode → List Token → Except String (ParseNode × List Token)
  productP : List Token → Except String (ParseNode × List Token)
  productGo : ParseNode → List Token → Except String (ParseNode × List Token)
  unary : List Token → Except String (ParseNode × List Token)
  callP : List Token → Except String (ParseNode × List Token)
  callArgs : Bool → List ParseNode → List Token → Except String (List ParseNode × List Token)
  atom : List Token → Except String (ParseNode × List Token)

/-- The parser at fuel zero: every entry point reports exhaustion. -/
def parserBottom : ParserFns :=
  let e {α : Type} : List Token → Except String (α × List Token) :=
    fun _ => .error "Parser fuel exhausted"
  { block := e, blockGo := fun _ => e, line := e, lineOrBlock := fun _ => e
    ifP := e, whileP := e, functionP := e, functionArgs := fun _ _ => e
    returnP := e, expr := e, assign := e
    orP := e, orGo := fun _ => e, andP := e, andGo := fun _ => e
    eqP := e, eqGo := fun _ => e, ineqP := e, ineqGo := fun _ => e
    sumP := e, sumGo := fun _ => e, productP := e, productGo := fun _ => e
    unary := e, callP := e, callArgs := fun _ _ => e, atom := e }

/-- One fuel level of the parser: each field transcribes the
corresponding method of the source, with calls to other methods going
through the previous level p. -/
def parserStep (p : ParserFns) : ParserFns where
  block := fun ts => p.blockGo [] ts
  blockGo := fun acc ts =>
    if ts.isEmpty || (parserCur ts).type == .RCBRACE then
      .ok (.mk .BLOCK "" acc, ts)
    else if (parserCur ts).type == .SEMICOL then
      p.blockGo acc ts.tail
    else do
      let (n, ts') ← p.line ts
      p.blockGo (acc ++ [n]) ts'
  line := fun ts =>
    if parserAccept ts [.IF] then p.ifP ts
    else if parserAccept ts [.WHILE] then p.whileP ts
    else if parserAccept ts [.FUNCTION] then p.functionP ts
    else if parserAccept ts [.RETURN] then p.returnP ts
    else do
      let (e, ts') ← p.expr ts
      parserExpect ts' [.SEMICOL]
      .ok (e, ts'.tail)
  lineOrBlock := fun forceBraces ts => do
    if forceBraces then parserExpect ts [.LCBRACE] else .ok ()
    if parserAccept ts [.LCBRACE] then do
      let (blk, ts') ← p.block ts.tail
      parserExpect ts' [.RCBRACE]
      .ok (blk, ts'.tail)
    else p.line ts
  ifP := fun ts => do
    parserExpect ts [.IF]
    let ts := ts.tail
    parserExpect ts [.LBRACE]
    let ts := ts.tail
    let (condition, ts) ← p.expr ts
    parserExpect ts [.RBRACE]
    let ts := ts.tail
    let (block, ts) ← p.lineOrBlock false ts
    if parserAccept ts [.ELSE] then do
      let (elseBlock, ts') ← p.lineOrBlock false ts.tail
      .ok (.mk .IF "" [condition, block, elseBlock], ts')
    else .ok (.mk .IF "" [condition, block], ts)
  whileP := fun ts => do
    parserExpect ts [.WHILE]
    let ts := ts.tail
    parserExpect ts [.LBRACE]
    let ts := ts.tail
    let (condition, ts) ← p.expr ts
    parserExpect ts [.RBRACE]
    let ts := ts.tail
    let (block, ts) ← p.lineOrBlock false ts
    .ok (.mk .WHILE "" [condition, block], ts)
  functionP := fun ts => do
    parserExpect ts [.FUNCTION]
    let ts := ts.tail
    parserExpect ts [.ID]
    let name := (parserCur ts).content
    let ts := ts.tail
    parserExpect ts [.LBRACE]
    let ts := ts.tail
    let (args, ts) ← p.functionArgs true [] ts
    parserExpect ts [.RBRACE]
    let ts := ts.tail
    let (block, ts) ← p.lineOrBlock true ts
    let content := name ++ "(" ++ ",".intercalate args ++ ")"
    .ok (.mk .FUNCTION content [block], ts)
  functionArgs := fun first args ts =>
    if ts.isEmpty || parserAccept ts [.RBRACE] then .ok (args, ts)
    else do
      let ts ← if first then pure ts else do
        parserExpect ts [.COMMA]
        pure ts.tail
      parserExpect ts [.ID]
      p.functionArgs false (args ++ [(parserCur ts).content]) ts.tail
  returnP := fun ts => do
    parserExpect ts [.RETURN]
    let ts := ts.tail
    if parserAccept ts [.SEMICOL] then .ok (.mk .RETURN "" [], ts)
    else do
      let (e, ts') ← p.expr ts
      .ok (.mk .RETURN "" [e], ts')
  expr := fun ts => p.assign ts
  assign := fun ts => do
    let (left, ts') ← p.orP ts
    let op : Option NodeType :=
      match (parserCur ts').type with
      | .ASSIGN => some .ASSIGN
      | .ASSIGN_ADD => some .ASSIGN_ADD
      | .ASSIGN_SUB => some .ASSIGN_SUB
      | .ASSIGN_MUL => some .ASSIGN_MUL
      | .ASSIGN_DIV => some .ASSIGN_DIV
      | .ASSIGN_MOD => some .ASSIGN_MOD
      | _ => none
    match op with
    | none => .ok (left, ts')
    | some nk => do
        let (right, ts'') ← p.assign ts'.tail
        let parent := ParseNode.mk nk "" [left, right]
        if left.type == .ID then .ok (parent, ts'')
        else .error "Assignment requires identifier on the left"
  orP := fun ts => do
    let (left, ts') ← p.andP ts
    p.orGo left ts'
  orGo := fun left ts =>
    if (parserCur ts).type == .OR then do
      let (right, ts') ← p.andP ts.tail
      p.orGo (.mk .OR "" [left, right]) ts'
    else .ok (left, ts)
  andP := fun ts => do
    let (left, ts') ← p.eqP ts
    p.andGo left ts'
  andGo := fun left ts =>
    if (parserCur ts).type == .AND then do
      let (right, ts') ← p.eqP ts.tail
      p.andGo (.mk .AND "" [left, right]) ts'
    else .ok (left, ts)
  eqP := fun ts => do
    let (left, ts') ← p.ineqP ts
    p.eqGo left ts'
  eqGo := fun left ts =>
    match (parserCur ts).type with
    | .EQ => do
        let (right, ts') ← p.ineqP ts.tail
        p.eqGo (.mk .EQ "" [left, right]) ts'
    | .NEQ => do
        let (right, ts') ← p.ineqP ts.tail
        p.eqGo (.mk .NEQ "" [left, right]) ts'
    | _ => .ok (left, ts)
  ineqP := fun ts => do
    let (left, ts') ← p.sumP ts
    p.ineqGo left ts'
  ineqGo := fun left ts =>
    match (parserCur ts).type with
    | .LT => do
        let (right, ts') ← p.sumP ts.tail
        p.ineqGo (.mk .LT "" [left, right]) ts'
    | .LTE => do
        let (right, ts') ← p.sumP ts.tail
        p.ineqGo (.mk .LTE "" [left, right]) ts'
    | .GT => do
        let (right, ts') ← p.sumP ts.tail
        p.ineqGo (.mk .GT "" [left, right]) ts'
    | .GTE => do
        let (right, ts') ← p.sumP ts.tail
        p.ineqGo (.mk .GTE "" [left, right]) ts'
    | _ => .ok (left, ts)
  sumP := fun ts => do
    let (left, ts') ← p.productP ts
    p.sumGo left ts'
  sumGo := fun left ts =>
    match (parserCur ts).type with
    | .ADD => do
        let (right, ts') ← p.productP ts.tail
        p.sumGo (.mk .ADD "" [left, right]) ts'
    | .SUB => do
        let (right, ts') ← p.productP ts.tail
        p.sumGo (.mk .SUB "" [left, right]) ts'
    | _ => .ok (left, ts)
  productP := fun ts => do
    let (left, ts') ← p.unary ts
    p.productGo left ts'
  productGo := fun left ts =>
    match (parserCur ts).type with
    | .MUL => do
        let (right, ts') ← p.unary ts.tail
        p.productGo (.mk .MUL "" [left, right]) ts'
    | .DIV => do
        let (right, ts') ← p.unary ts.tail
        p.productGo (.mk .DIV "" [left, right]) ts'
    | .MOD => do
        let (right, ts') ← p.unary ts.tail
        p.productGo (.mk .MOD "" [left, right]) ts'
    | _ => .ok (left, ts)
  unary := fun ts =>
    if parserAccept ts [.NOT] then do
      let (e, ts') ← p.unary ts.tail
      .ok (.mk .NOT "" [e], ts')
    else if parserAccept ts [.SUB] then do
      let (e, ts') ← p.unary ts.tail
      .ok (.mk .NEG "" [e], ts')
    else p.callP ts
  callP := fun ts => do
    let (left, ts') ← p.atom ts
    if parserAccept ts' [.LBRACE] then
      if left.type == .ID then do
        let (args, ts'') ← p.callArgs true [] ts'.tail
        parserExpect ts'' [.RBRACE]
        .ok (.mk .CALL left.content args, ts''.tail)
      else .error "Function call syntax only on identifiers"
    else .ok (left, ts')
  callArgs := fun first args ts =>
    if parserAccept ts [.RBRACE] || ts.isEmpty then .ok (args, ts)
    else do
      let ts ← if first then pure ts else do
        parserExpect ts [.COMMA]
        pure ts.tail
      let (e, ts') ← p.expr ts
      p.callArgs false (args ++ [e]) ts'
  atom := fun ts =>
    if parserAccept ts [.LBRACE] then do
      let (e, ts') ← p.expr ts.tail
      parserExpect ts' [.RBRACE]
      .ok (e, ts'.tail)
    else do
      parserExpect ts [.ID, .NUM, .STR, .TRUE, .FALSE]
      if parserAccept ts [.TRUE, .FALSE] then
        let content := if parserAccept ts [.TRUE] then "1" else "0"
        .ok (.mk .NUM content [], ts.tail)
      else
        let nodeType : NodeType :=
          match (parserCur ts).type with
          | .ID => .ID
          | .NUM => .NUM
          | _ => .STR
        .ok (.mk nodeType (parserCur ts).content [], ts.tail)

/-- The parser with the given fuel, one unit per method call, spelled
with Nat.rec for constant-work kernel unfolding. -/
def parserAt (fuel : Nat) : ParserFns :=
  Nat.rec (motive := fun _ => ParserFns) parserBottom (fun _ ih => parserStep ih) fuel

/-- Fuel that is never the binding constraint for a terminating descent:
the source parser has no fuel at all, and between two consumed tokens it
descends at most the fixed twelve-level precedence cascade, so forty
levels per input token leave a wide margin.  The fuel exists only to
make the embedding total. -/
def parserFuelFor (tokens : List Token) : Nat :=
  40 * tokens.length + 40

/-- parseBlock entry point (used by Parser.parse). -/
def parseBlock (fuel : Nat) (ts : List Token) : Except String (ParseNode × List Token) :=
  (parserAt fuel).block ts

/-- Parser.parse: parse a whole token list; tokens left over after the
top-level block are ignored, as in the source. -/
def parse (tokens : List Token) : Except String ParseNode :=
  match parseBlock (parserFuelFor tokens) tokens with
  | .error e => .error e
  | .ok (root, _) => .ok root

/-! ## Call stack (callstack.mts)

A frame is an insertion-ordered mapping (Dict) from names to bindings,
where a binding is either a value or a stored function node.  The source
keeps the topmost frame at the end of its frames array; here the topmost
frame is the head of the list. -/
inductive Binding
  | val (v : ReturnValue)
  | func (f : ParseNode)

abbrev Frame := List (String × Binding)

def frameHas (fr : Frame) (name : String) : Bool :=
  fr.any (fun p => p.1 == name)

def frameGet (fr : Frame) (name : String) : Option Binding :=
  (fr.find? (fun p => p.1 == name)).map (fun p => p.2)

/-- Dict.set: overwrite in place, or append a new entry. -/
def frameSet (fr : Frame) (name : String) (v : Binding) : Frame :=
  if frameHas fr name then
    fr.map (fun p => if p.1 == name then (p.1, v) else p)
  else fr ++ [(name, v)]

/-- CallStack.get: search the frames from the top down; none when no
frame holds the name (the source throws at the call sites through this
none). -/
def csGet : List Frame → String → Option Binding
  | [], _ => none
  | fr :: rest, name =>
      if frameHas fr name then frameGet fr name else csGet rest name

/-- CallStack.has: does any frame hold the name. -/
def csHas (stack : List Frame) (name : String) : Bool :=
  stack.any (fun fr => frameHas fr name)

/-- CallStack.set: write in the topmost frame only. -/
def csSet (stack : List Frame) (name : String) (v : Binding) : List Frame :=
  match stack with
  | [] => []
  | fr :: rest => frameSet fr name v :: rest

def pushFrame (stack : List Frame) : List Frame :=
  [] :: stack

def popFrame (stack : List Frame) : List Frame :=
  stack.tail

/-! ## Evaluator state and effects (ladybug.mts) -/
/-- A registered handle: a host callback from argument values to a
result, which may fail (a failure propagates as a fatal error). -/
abbrev HandleFn := List ReturnValue → Except String ReturnValue

/-- The mutable parts of a Ladybug instance: the handle table, the call
stack and the pending-return value. -/
structure LState where
  handles : List (String × HandleFn)
  callStack : List Frame
  returnedValue : Option ReturnValue

def handlesHas (hs : List (String × HandleFn)) (name : String) : Bool :=
  hs.any (fun p => p.1 == name)

def handlesGet (hs : List (String × HandleFn)) (name : String) : Option HandleFn :=
  (hs.find? (fun p => p.1 == name)).map (fun p => p.2)

/-- Outcome of running a piece of the evaluator: a value, a thrown
error, or fuel exhaustion. -/
inductive EOut (α : Type)
  | ok (a : α)
  | err (msg : String)
  | oof

/-- Evaluator computations: state in, outcome and state out.  State
changed before a throw stays changed, as on a TypeScript instance. -/
def EvalM (α : Type) : Type :=
  LState → EOut α × LState

def pureE {α : Type} (a : α) : EvalM α :=
  fun s => (.ok a, s)

def bindE {α β : Type} (m : EvalM α) (k : α → EvalM β) : EvalM β :=
  fun s =>
    match m s with
    | (.ok a, s') => k a s'
    | (.err e, s') => (.err e, s')
    | (.oof, s') => (.oof, s')

def throwE {α : Type} (msg : String) : EvalM α :=
  fun s => (.err msg, s)

def oofE {α : Type} : EvalM α :=
  fun s => (.oof, s)

def getS : EvalM LState :=
  fun s => (.ok s, s)

def modifyS (f : LState → LState) : EvalM Unit :=
  fun s => (.ok (), f s)

/-- Child access: the source indexes node.children directly; a missing
child is a TypeError crash in JavaScript (never reached on parser
output). -/
def childAt (node : ParseNode) (i : Nat) : EvalM ParseNode :=
  match node.children.get? i with
  | some c => pureE c
  | none => throwE "TypeError"

/-! ## String.split and slice used on stored signatures -/
def jsSplitGo (sep : Char) : List Char → List Char → List String
  | [], acc => [String.mk acc.reverse]
  | c :: rest, acc =>
      if c == sep then String.mk acc.reverse :: jsSplitGo sep rest []
      else jsSplitGo sep rest (c :: acc)

/-- JavaScript String.split with a single-character separator; the split
of the empty string is a list holding one empty string. -/
def jsSplitChar (sep : Char) (s : String) : List String :=
  jsSplitGo sep s.data []

/-- JavaScript slice(0, -1): drop the last character. -/
def strDropLast (s : String) : String :=
  String.mk s.data.dropLast

/-! ## Evaluator (ladybug.mts)

Each helper takes the recursive dispatch executeNode, already applied to
the remaining fuel, as its recNode argument; executeNode itself is the
only function recursing on the fuel (plus the WHILE loop, which carries
its own fuel for its unbounded iteration). -/
/-- isTruthy: false exactly for a NUM whose numeric value is zero. -/
def isTruthy (value : ReturnValue) : Bool :=
  !(value.type == .NUM && (parseNum value.content).isZero)

/-- nodeToBinaryOp: the arithmetic operation of a node type. -/
def nodeToBinaryOp : NodeType → Option (JsNum → JsNum → JsNum)
  | .ADD | .ASSIGN_ADD => some JsNum.add
  | .SUB | .ASSIGN_SUB => some JsNum.sub
  | .MUL | .ASSIGN_MUL => some JsNum.mul
  | .DIV | .ASSIGN_DIV => some JsNum.div
  | .MOD | .ASSIGN_MOD => some JsNum.mod
  | _ => none

def executeBlockGo (recNode : ParseNode → EvalM ReturnValue) : List ParseNode → EvalM Unit
  | [] => pureE ()
  | c :: cs => bindE (recNode c) (fun _ => executeBlockGo recNode cs)

/-- executeBlock: run the children in order. -/
def executeBlock (recNode : ParseNode → EvalM ReturnValue) (node : ParseNode) : EvalM Unit :=
  executeBlockGo recNode node.children

/-- executeIf: run the matching branch of the condition's truthiness. -/
def executeIf (recNode : ParseNode → EvalM ReturnValue) (node : ParseNode) : EvalM Unit :=
  bindE (childAt node 0) fun c0 =>
  bindE (recNode c0) fun condition =>
  if isTruthy condition then
    bindE (childAt node 1) fun c1 =>
    bindE (recNode c1) fun _ => pureE ()
  else if node.children.length > 2 then
    bindE (childAt node 2) fun c2 =>
    bindE (recNode c2) fun _ => pureE ()
  else pureE ()

/-- One iteration of executeWhile, with the rest of the loop passed as
again: evaluate the condition, and when it is truthy run the body and
continue. -/
def executeWhileStep (recNode : ParseNode → EvalM ReturnValue)
    (again : ParseNode → EvalM Unit) (node : ParseNode) : EvalM Unit :=
  bindE (childAt node 0) fun c0 =>
  bindE (recNode c0) fun condition =>
  if isTruthy condition then
    bindE (childAt node 1) fun c1 =>
    bindE (recNode c1) fun _ =>
    again node
  else pureE ()

/-- executeWhile: re-evaluate the condition before every iteration; the
iteration count is unbounded, hence the fuel (one unit per iteration,
spelled with Nat.rec for constant-work kernel unfolding). -/
def executeWhile (fuel : Nat) (recNode : ParseNode → EvalM ReturnValue) :
    ParseNode → EvalM Unit :=
  Nat.rec (motive := fun _ => ParseNode → EvalM Unit)
    (fun _ => oofE) (fun _ ih => executeWhileStep recNode ih) fuel

/-- registerFunction: store the function node in the current frame under
the name taken from the serialized signature; a handle name is fatal. -/
def registerFunction (node : ParseNode) : EvalM Unit :=
  let name := (jsSplitChar '(' node.content).headD ""
  bindE getS fun s =>
  if handlesHas s.handles name then
    throwE ("The name " ++ name ++ " is reserved by a handle")
  else
    modifyS fun s' => { s' with callStack := csSet s'.callStack name (.func node) }

/-- Evaluate argument expressions in order, in the caller's frame. -/
def evalArgs (recNode : ParseNode → EvalM ReturnValue) : List ParseNode → EvalM (List ReturnValue)
  | [] => pureE []
  | p :: ps =>
      bindE (recNode p) fun v =>
      bindE (evalArgs recNode ps) fun vs =>
      pureE (v :: vs)

/-- Bind the parameters to the evaluated arguments in the fresh top
frame (the lists have equal length when called).  The dead
instanceof-ParseNode check of the source is typed away here: argument
values are always ReturnValues. -/
def bindParams : List String → List ReturnValue → EvalM Unit
  | n :: ns, v :: vs =>
      bindE (modifyS fun s => { s with callStack := csSet s.callStack n (.val v) }) fun _ =>
      bindParams ns vs
  | _, _ => pureE ()

/-- executeHandleCall: look the handle up and call it on the evaluated
arguments. -/
def executeHandleCall (recNode : ParseNode → EvalM ReturnValue) (node : ParseNode) : EvalM ReturnValue :=
  bindE getS fun s =>
  match handlesGet s.handles node.content with
  | none => throwE ("Key " ++ node.content ++ " not in dictionary")
  | some h =>
      bindE (evalArgs recNode node.children) fun values =>
      match h values with
      | .ok v => pureE v
      | .error e => throwE e

/-- Tail of executeCall once the callee and the evaluated argument
values are at hand: push a frame, bind the parameters, run the body, pop
the frame, and capture-and-clear the pending return value. -/
def executeCallInvoke (recNode : ParseNode → EvalM ReturnValue) (func : ParseNode)
    (paramNames : List String) (values : List ReturnValue) : EvalM ReturnValue :=
  bindE (modifyS fun s' => { s' with callStack := pushFrame s'.callStack }) fun _ =>
  bindE (bindParams paramNames values) fun _ =>
  bindE (childAt func 0) fun body =>
  bindE (recNode body) fun _ =>
  bindE (modifyS fun s' => { s' with callStack := popFrame s'.callStack }) fun _ =>
  bindE getS fun s' =>
  bindE (modifyS fun s'' => { s'' with returnedValue := none }) fun _ =>
  pureE (s'.returnedValue.getD ReturnValue.void)

/-- executeCall: handles take priority; for user functions, recover the
parameter names from the stored signature, check the arity, evaluate the
arguments in the caller's frame, then invoke. -/
def executeCall (recNode : ParseNode → EvalM ReturnValue) (node : ParseNode) : EvalM ReturnValue :=
  bindE getS fun s =>
  if handlesHas s.handles node.content then executeHandleCall recNode node
  else
    match csGet s.callStack node.content with
    | none => throwE ("Name " ++ node.content ++ " was not defined in this context")
    | some (.val _) => throwE (node.content ++ " is not a function")
    | some (.func func) =>
        match (jsSplitChar '(' func.content).get? 1 with
        | none => throwE "TypeError"
        | some seg =>
            let paramNames := jsSplitChar ',' (strDropLast seg)
            let params := node.children
            if paramNames.length ≠ params.length then
              throwE "Number of parameters does not match expected number"
            else
              bindE (evalArgs recNode params) fun values =>
              executeCallInvoke recNode func paramNames values

/-- executeReturn: evaluate the optional expression and set the
pending-return value. -/
def executeReturn (recNode : ParseNode → EvalM ReturnValue) (node : ParseNode) : EvalM Unit :=
  match node.children.head? with
  | some c =>
      bindE (recNode c) fun v =>
      modifyS fun s => { s with returnedValue := some v }
  | none => modifyS fun s => { s with returnedValue := some ReturnValue.void }

/-- Viewing a binding the way the duck-typed source views left.type in
compound assignment: a stored FUNCTION node never compares equal to any
ValueType (its numeric node-type tag lies outside the three value
tags). -/
def bindingValueType : Binding → Option ValueType
  | .val v => some v.type
  | .func _ => none

def bindingContent : Binding → String
  | .val v => v.content
  | .func n => n.content

/-- executeCompoundAssign: read the target, combine with the evaluated
right-hand side, store.  The string branch transcribes the source
condition as written: its second disjunct tests equality where the
parallel executeBinaryArith tests disequality, so the both-strings case
throws and the string-plus-nonstring case concatenates without storing
(claim C1). -/
def executeCompoundAssign (recNode : ParseNode → EvalM ReturnValue) (node : ParseNode) : EvalM ReturnValue :=
  bindE (childAt node 0) fun c0 =>
  let varName := c0.content
  bindE getS fun s =>
  match csGet s.callStack varName with
  | none => throwE ("Name " ++ varName ++ " was not defined in this context")
  | some left =>
      bindE (childAt node 1) fun c1 =>
      bindE (recNode c1) fun right =>
      if node.type == .ASSIGN_ADD &&
          (bindingValueType left == some .STR || right.type == .STR) then
        if bindingValueType left != some .STR || right.type == .STR then
          throwE "Cannot concatenate non-string and string"
        else pureE ⟨.STR, bindingContent left ++ right.content⟩
      else if bindingValueType left != some .NUM || right.type != .NUM then
        throwE "Cannot perform arithmatic on non-number type"
      else
        match nodeToBinaryOp node.type with
        | none => throwE "Unexpected node type"
        | some op =>
            let ret : ReturnValue :=
              ⟨.NUM, printNum (op (parseNum (bindingContent left)) (parseNum right.content))⟩
            bindE (modifyS fun s' => { s' with callStack := csSet s'.callStack varName (.val ret) }) fun _ =>
            pureE ret

/-- executeAssign: plain assignment stores the evaluated right-hand side
under the target name (handle names fatal); compound forms are
dispatched to executeCompoundAssign. -/
def executeAssign (recNode : ParseNode → EvalM ReturnValue) (node : ParseNode) : EvalM ReturnValue :=
  if node.type != .ASSIGN then executeCompoundAssign recNode node
  else
    bindE (childAt node 0) fun c0 =>
    let varName := c0.content
    bindE getS fun s =>
    if handlesHas s.handles varName then
      throwE ("The name " ++ varName ++ " is reserved by a handle")
    else
      bindE (childAt node 1) fun c1 =>
      bindE (recNode c1) fun right =>
      bindE (modifyS fun s' => { s' with callStack := csSet s'.callStack varName (.val right) }) fun _ =>
      pureE right

/-- executeAndOr: short-circuit on the left operand's truthiness; the
result is always NUM 0 or NUM 1. -/
def executeAndOr (recNode : ParseNode → EvalM ReturnValue) (node : ParseNode) : EvalM ReturnValue :=
  bindE (childAt node 0) fun c0 =>
  bindE (recNode c0) fun l =>
  let left := isTruthy l
  if !left && node.type == .AND then pureE ⟨.NUM, "0"⟩
  else if left && node.type == .OR then pureE ⟨.NUM, "1"⟩
  else
    bindE (childAt node 1) fun c1 =>
    bindE (recNode c1) fun r =>
    pureE ⟨.NUM, if isTruthy r then "1" else "0"⟩

/-- executeNot: boolean complement as NUM 0 or 1. -/
def executeNot (recNode : ParseNode → EvalM ReturnValue) (node : ParseNode) : EvalM ReturnValue :=
  bindE (childAt node 0) fun c0 =>
  bindE (recNode c0) fun v =>
  pureE ⟨.NUM, if isTruthy v then "0" else "1"⟩

/-- executeEq: type mismatch is unconditionally not-equal; matching
types compare numerically (NUM) or textually. -/
def executeEq (recNode : ParseNode → EvalM ReturnValue) (node : ParseNode) : EvalM ReturnValue :=
  let invert := node.type == .NEQ
  bindE (childAt node 0) fun c0 =>
  bindE (recNode c0) fun left =>
  bindE (childAt node 1) fun c1 =>
  bindE (recNode c1) fun right =>
  if left.type != right.type then pureE ⟨.NUM, if invert then "1" else "0"⟩
  else
    let result :=
      if left.type == .NUM then JsNum.beq (parseNum left.content) (parseNum right.content)
      else left.content == right.content
    pureE ⟨.NUM, if result != invert then "1" else "0"⟩

/-- executeCompare: the relational operators require NUM operands; EQ
and NEQ are dispatched to executeEq. -/
def executeCompare (recNode : ParseNode → EvalM ReturnValue) (node : ParseNode) : EvalM ReturnValue :=
  match node.type with
  | .EQ | .NEQ => executeEq recNode node
  | t =>
      let comp : JsNum → JsNum → Bool :=
        match t with
        | .LT => JsNum.blt
        | .LTE => JsNum.ble
        | .GT => fun x y => JsNum.blt y x
        | .GTE => fun x y => JsNum.ble y x
        | _ => fun _ _ => false
      bindE (childAt node 0) fun c0 =>
      bindE (recNode c0) fun left =>
      bindE (childAt node 1) fun c1 =>
      bindE (recNode c1) fun right =>
      if left.type != .NUM || right.type != .NUM then
        throwE "Cannot compare non-numeric types"
      else
        pureE ⟨.NUM, if comp (parseNum left.content) (parseNum right.content) then "1" else "0"⟩

/-- executeBinaryArith: STR plus STR concatenates; any other non-numeric
operand is fatal; numeric operands are combined and re-stringified. -/
def executeBinaryArith (recNode : ParseNode → EvalM ReturnValue) (node : ParseNode) : EvalM ReturnValue :=
  bindE (childAt node 0) fun c0 =>
  bindE (recNode c0) fun left =>
  bindE (childAt node 1) fun c1 =>
  bindE (recNode c1) fun right =>
  if node.type == .ADD && (left.type == .STR || right.type == .STR) then
    if left.type != .STR || right.type != .STR then
      throwE "Cannot concatenate non-string and string"
    else pureE ⟨.STR, left.content ++ right.content⟩
  else if left.type != .NUM || right.type != .NUM then
    throwE "Cannot perform arithmatic on non-number type"
  else
    match nodeToBinaryOp node.type with
    | none => throwE "Unexpected node type"
    | some op =>
        pureE ⟨.NUM, printNum (op (parseNum left.content) (parseNum right.content))⟩

/-- executeNeg: negation requires a NUM operand. -/
def executeNeg (recNode : ParseNode → EvalM ReturnValue) (node : ParseNode) : EvalM ReturnValue :=
  bindE (childAt node 0) fun c0 =>
  bindE (recNode c0) fun child =>
  if child.type != .NUM then throwE "Cannot negate non-numeric type"
  else pureE ⟨.NUM, printNum (JsNum.neg (parseNum child.content))⟩

/-- executeAtom: resolve identifiers through the scope chain (a function
binding cannot be used without calling it); literals yield their own
content unchanged. -/
def executeAtom (node : ParseNode) : EvalM ReturnValue :=
  match node.type with
  | .ID =>
      bindE getS fun s =>
      match csGet s.callStack node.content with
      | none => throwE ("Name " ++ node.content ++ " was not defined in this context")
      | some (.func _) => throwE "Cannot use function in expression without calling it"
      | some (.val v) => pureE v
  | .NUM => pureE ⟨.NUM, node.content⟩
  | .STR => pureE ⟨.STR, node.content⟩
  | _ => throwE "Unexpected node type"

/-- Body of executeNode at one fuel level: recNode is the dispatch with
the remaining fuel f.  Once a pending return value is set, every
dispatch is a no-op returning VOID until the call handler clears it. -/
def executeNodeGo (f : Nat) (recNode : ParseNode → EvalM ReturnValue) (node : ParseNode) :
    EvalM ReturnValue :=
  bindE getS fun s =>
  if s.returnedValue.isSome then pureE ReturnValue.void
  else
    match node.type with
    | .BLOCK => bindE (executeBlock recNode node) fun _ => pureE ReturnValue.void
    | .IF => bindE (executeIf recNode node) fun _ => pureE ReturnValue.void
    | .WHILE => bindE (executeWhile f recNode node) fun _ => pureE ReturnValue.void
    | .RETURN => bindE (executeReturn recNode node) fun _ => pureE ReturnValue.void
    | .FUNCTION => bindE (registerFunction node) fun _ => pureE ReturnValue.void
    | .ASSIGN | .ASSIGN_ADD | .ASSIGN_SUB | .ASSIGN_MUL | .ASSIGN_DIV | .ASSIGN_MOD =>
        executeAssign recNode node
    | .ID | .NUM | .STR => executeAtom node
    | .CALL => executeCall recNode node
    | .ADD | .SUB | .MUL | .DIV | .MOD => executeBinaryArith recNode node
    | .AND | .OR => executeAndOr recNode node
    | .EQ | .NEQ | .LT | .LTE | .GT | .GTE => executeCompare recNode node
    | .NEG => executeNeg recNode node
    | .NOT => executeNot recNode node
    | _ => throwE "Unimplemented"

/-- executeNode: the central dispatch, one fuel unit per dispatch,
spelled with Nat.rec for constant-work kernel unfolding. -/
def executeNode (fuel : Nat) : ParseNode → EvalM ReturnValue :=
  Nat.rec (motive := fun _ => ParseNode → EvalM ReturnValue)
    (fun _ => oofE) (fun f ih => executeNodeGo f ih) fuel

/-- Ladybug.execute: lex, parse, and run the root block against the
instance state.  A lex or parse fault leaves the state untouched; a
diverging lex (claim C6) never reaches execution and is reported as the
out-of-fuel outcome. -/
def execute (fuel : Nat) (code : String) : EvalM Unit :=
  fun s =>
    match lexRead code with
    | (tokens, .ok) =>
        match parse tokens with
        | .error e => (.err e, s)
        | .ok root => bindE (executeNode fuel root) (fun _ => pureE ()) s
    | (_, .err e) => (.err e, s)
    | (_, .diverge _) => (.oof, s)
    | (_, .oof) => (.oof, s)

/-- A fresh Ladybug instance with the given handles registered: one
empty global frame, no pending return. -/
def initState (handles : List (String × HandleFn)) : LState :=
  ⟨handles, [[]], none⟩

/-! ## Claim C5 infrastructure: symbolic execution of the fib program.

The nodes of the fib function body are named so that the evaluation
lemmas below compose: each lemma evaluates one node at a symbolic fuel
and a symbolic surrounding stack, and the lemma for a parent node
rewrites with the lemmas of its children. -/
def fibGt : ParseNode := .mk .GT "" [.mk .ID "x" [], .mk .NUM "2" []]

def fibSubN (n : String) : ParseNode := .mk .SUB "" [.mk .ID "x" [], .mk .NUM n []]

def fibCallArg (n : String) : ParseNode := .mk .CALL "fib" [fibSubN n]

def fibAdd : ParseNode := .mk .ADD "" [fibCallArg "1", fibCallArg "2"]

def fibRetAdd : ParseNode := .mk .RETURN "" [fibAdd]

def fibIf : ParseNode := .mk .IF "" [fibGt, fibRetAdd]

def fibRet1 : ParseNode := .mk .RETURN "" [.mk .NUM "1" []]

def fibBody : ParseNode := .mk .BLOCK "" [fibIf, fibRet1]

/-- The FUNCTION node the parser builds for the fib declaration. -/
def fibFunc : ParseNode := .mk .FUNCTION "fib(x)" [fibBody]

/-- The CALL node for fib applied to a literal. -/
def fibTopCall (n : String) : ParseNode := .mk .CALL "fib" [.mk .NUM n []]

/-- Calling fib with a given argument value: for every sufficiently
large fuel and every stack in which fib is bound, the invocation returns
the value and leaves the state unchanged. -/
def FibOk (k v : String) : Prop :=
  ∃ f0 : Nat, ∀ f : Nat, f0 ≤ f → ∀ st : List Frame,
    csGet st "fib" = some (.func fibFunc) →
    executeCallInvoke (executeNode f) fibFunc ["x"] [⟨.NUM, k⟩] (LState.mk [] st none)
      = (.ok ⟨.NUM, v⟩, LState.mk [] st none)

/-- The fib example program, with the terminating semicolon that the
grammar requires, and its variant exactly as written in the spec
(without it). -/
def fibProgram : String :=
  "function fib(x)\x7b if (x>2) return fib(x-1)+fib(x-2); return 1; \x7d fib(9);"

def fibProgramNoSemi : String :=
  "function fib(x)\x7b if (x>2) return fib(x-1)+fib(x-2); return 1; \x7d fib(9)"

/-- The root the pipeline produces for the fib program. -/
def fibRoot : ParseNode := .mk .BLOCK "" [fibFunc, fibTopCall "9"]

/-- The instance state once the fib declaration has executed. -/
def fibGlobal : LState := LState.mk [] [[("fib", .func fibFunc)]] none

/-! ## Claim-level definitions (concrete programs and states) -/
def c1State : LState := ⟨[], [[("x", .val ⟨.STR, "a"⟩)]], none⟩

def c1NodeStr : ParseNode := .mk .ASSIGN_ADD "" [.mk .ID "x" [], .mk .STR "b" []]

def c1NodeNum : ParseNode := .mk .ASSIGN_ADD "" [.mk .ID "x" [], .mk .NUM "1" []]

def c2ZeroProg : String := "function f()\x7b return 1; \x7d f();"

def c2OneProg : String := "function g(x)\x7b return x; \x7d g(7);"

def c2TwoProg : String := "function g(x)\x7b return x; \x7d g(7, 8);"

/-- A host handle that ignores its arguments and returns VOID. -/
def voidHandle : HandleFn := fun _ => .ok ReturnValue.void

def c3Prog1 : String := "function f(h)\x7b y; \x7d"

def c3Prog2 : String := "f(5);"

/-- The instance state after declaring f(h) and then calling f(5) with
the handle h registered: the call binds the parameter h, the body faults
on the undefined name y, and the faulted frame stays on the stack. -/
def c3State : LState :=
  (execute 200 c3Prog2 (execute 200 c3Prog1 (initState [("h", voidHandle)])).2).2

def c4Prog1 : String := "return 5; x = 1;"

def c4Prog2 : String := "y = 2;"

def c4AfterState : LState := ⟨[], [[]], some ⟨.NUM, "5"⟩⟩

def c7Prog : String := "function f()\x7b return 1/0; \x7d 0 && f();"

/-- The instance state after the f() declaration of the short-circuit
example. -/
def c7Global : LState :=
  ⟨[], [[("f", .func (.mk .FUNCTION "f()" [.mk .BLOCK "" [.mk .RETURN ""
    [.mk .DIV "" [.mk .NUM "1" [], .mk .NUM "0" []]]]]))]], none⟩

def c7AndNode : ParseNode := .mk .AND "" [.mk .NUM "0" [], .mk .CALL "f" []]

def c8Prog : String := "function f(x)\x7b x = x + 1; return x; \x7d y = 5; f(y);"

def c9Node : ParseNode := .mk .EQ "" [.mk .NUM "1" [], .mk .STR "1" []]

/-! ## C10: reconstruction of literal text from token content -/
/-- Input that stops the identifier loop: end of input or a character the
loop rejects. -/
def stopsID : List Char → Bool
  | [] => true
  | d :: _ => !(isIDChar d false)

/-- Input that stops the number loop whatever the dot state: end of input
or a character that is neither digit nor dot. -/
def stopsNum : List Char → Bool
  | [] => true
  | d :: _ => !(isNumCh d) && !(d == '.')

/-- Valid identifier text, from the spec: a non-empty run of identifier
characters, the first also valid in start position, that is not a
keyword. -/
def specValidID : List Char → Bool
  | [] => false
  | c :: tail =>
      isIDChar c true && tail.all (fun d => isIDChar d false) &&
        (keywords (String.mk (c :: tail))).isNone

/-- Tail of a valid number: digits with at most one dot overall, fd
recording whether a dot was already seen. -/
def specValidNumCore (fd : Bool) : List Char → Bool
  | [] => true
  | c :: rest =>
      if isNumCh c then specValidNumCore fd rest
      else if !fd && c == '.' then specValidNumCore true rest
      else false

/-- Valid number text, from the spec: non-empty, starting with a digit,
digits with at most one dot. -/
def specValidNum : List Char → Bool
  | [] => false
  | c :: rest => isNumCh c && specValidNumCore false (c :: rest)

/-- One piece of the body of a string literal: a plain character or a
backslash escape. -/
inductive StrItem
  | plain (c : Char)
  | esc (c : Char)

def strItemRender : StrItem → List Char
  | .plain c => [c]
  | .esc c => ['\\', c]

/-- The source text of a string body. -/
def strItemsRender : List StrItem → List Char
  | [] => []
  | i :: rest => strItemRender i ++ strItemsRender rest

/-- The character a piece denotes after escape resolution. -/
def strItemUnescape : StrItem → Char
  | .plain c => c
  | .esc c => escapeChar c

/-- A piece is well formed for a delimiter when a plain character is
neither the delimiter nor a backslash. -/
def strItemOk (delim : Char) : StrItem → Bool
  | .plain c => !(c == delim) && !(c == '\\')
  | .esc _ => true

def strItemsOk (delim : Char) (items : List StrItem) : Bool :=
  items.all (strItemOk delim)

/-! ## Theorems -/

theorem lexGo_zero : lexGo 0 = fun _ acc => (acc, .oof) := rfl

theorem lexGo_succ (f : Nat) : lexGo (f + 1) = lexGoStep (lexGo f) := rfl

theorem executeNode_zero : executeNode 0 = fun _ => oofE := rfl

theorem executeNode_succ (f : Nat) :
    executeNode (f + 1) = executeNodeGo f (executeNode f) := rfl

theorem exN1 (m : Nat) : executeNode (m+1) = executeNodeGo m (executeNode m) := rfl

theorem exN2 (m : Nat) : executeNode (m+2) = executeNodeGo (m+1) (executeNode (m+1)) := rfl

theorem exN3 (m : Nat) : executeNode (m+3) = executeNodeGo (m+2) (executeNode (m+2)) := rfl

theorem exN4 (m : Nat) : executeNode (m+4) = executeNodeGo (m+3) (executeNode (m+3)) := rfl

theorem exN5 (m : Nat) : executeNode (m+5) = executeNodeGo (m+4) (executeNode (m+4)) := rfl

theorem exN6 (m : Nat) : executeNode (m+6) = executeNodeGo (m+5) (executeNode (m+5)) := rfl

theorem exN7 (m : Nat) : executeNode (m+7) = executeNodeGo (m+6) (executeNode (m+6)) := rfl

theorem ifFB {a : Type} (x y : a) : (if false = true then x else y) = y := rfl

theorem ifTB {a : Type} (x y : a) : (if true = true then x else y) = x := rfl

theorem bindE_pureE {a b : Type} (x : a) (k : a → EvalM b) : bindE (pureE x) k = k x := rfl

theorem bindE_getS_apply {b : Type} (k : LState → EvalM b) (s : LState) :
    bindE getS k s = k s s := rfl

theorem bindE_modifyS_apply {b : Type} (g : LState → LState) (k : Unit → EvalM b) (s : LState) :
    bindE (modifyS g) k s = k () (g s) := rfl

theorem bindE_ok {a b : Type} {m : EvalM a} {s s' : LState} {x : a}
    (h : m s = (.ok x, s')) (k : a → EvalM b) : bindE m k s = k x s' := by
  simp [bindE, h]

theorem bindE_assoc {a b c : Type} (m : EvalM a) (k1 : a → EvalM b) (k2 : b → EvalM c) :
    bindE (bindE m k1) k2 = bindE m (fun x => bindE (k1 x) k2) := by
  funext s
  simp only [bindE]
  rcases m s with ⟨r, s1⟩
  cases r <;> rfl

/-- Once a return value is pending, a dispatch is a no-op returning VOID
(the general form is claim C4; this is the rewriting-ready version). -/
theorem noopReturned (f : Nat) (node : ParseNode) (s : LState) (w : ReturnValue)
    (h : s.returnedValue = some w) :
    executeNode (f+1) node s = (.ok ReturnValue.void, s) := by
  simp only [exN1, executeNodeGo, bindE_getS_apply, h]
  simp [pureE]

theorem fibEvalX (f : Nat) (k : String) (st : List Frame) :
    executeNode (f+1) (.mk .ID "x" [])
        (LState.mk [] ([("x", .val ⟨.NUM, k⟩)] :: st) none)
      = (.ok ⟨.NUM, k⟩, LState.mk [] ([("x", .val ⟨.NUM, k⟩)] :: st) none) := by
  simp only [exN1, executeNodeGo, executeAtom, bindE_getS_apply, ParseNode.type,
    ParseNode.content, Option.isSome]
  simp [bindE_getS_apply, csGet, frameHas, frameGet, pureE]

theorem fibEvalNum (f : Nat) (lit : String) (s : LState) (h : s.returnedValue = none) :
    executeNode (f+1) (.mk .NUM lit []) s = (.ok ⟨.NUM, lit⟩, s) := by
  simp only [exN1, executeNodeGo, executeAtom, bindE_getS_apply, ParseNode.type,
    ParseNode.content, h, Option.isSome]
  simp [pureE]

theorem fibEvalGt (f : Nat) (k : String) (st : List Frame) :
    executeNode (f+2) fibGt (LState.mk [] ([("x", .val ⟨.NUM, k⟩)] :: st) none)
      = (.ok ⟨.NUM, if JsNum.blt (parseNum "2") (parseNum k) then "1" else "0"⟩,
         LState.mk [] ([("x", .val ⟨.NUM, k⟩)] :: st) none) := by
  simp only [fibGt, exN2, executeNodeGo, executeCompare, ParseNode.type,
    ParseNode.children, childAt, List.get?, bindE_getS_apply, bindE_pureE,
    Option.isSome, ifFB]
  rw [bindE_ok (fibEvalX f k st)]
  rw [bindE_ok (fibEvalNum f "2" _ rfl)]
  simp [pureE]

theorem fibEvalSub (f : Nat) (k n : String) (st : List Frame) :
    executeNode (f+2) (fibSubN n) (LState.mk [] ([("x", .val ⟨.NUM, k⟩)] :: st) none)
      = (.ok ⟨.NUM, printNum (JsNum.sub (parseNum k) (parseNum n))⟩,
         LState.mk [] ([("x", .val ⟨.NUM, k⟩)] :: st) none) := by
  simp only [fibSubN, exN2, executeNodeGo, executeBinaryArith, ParseNode.type,
    ParseNode.children, childAt, List.get?, bindE_getS_apply, bindE_pureE,
    Option.isSome, ifFB]
  rw [bindE_ok (fibEvalX f k st)]
  rw [bindE_ok (fibEvalNum f n _ rfl)]
  simp [pureE, nodeToBinaryOp]

theorem fibEvalCall (f : Nat) (k n karg v : String) (st : List Frame)
    (hfib : csGet st "fib" = some (.func fibFunc))
    (harg : printNum (JsNum.sub (parseNum k) (parseNum n)) = karg)
    (hinv : executeCallInvoke (executeNode (f+2)) fibFunc ["x"] [⟨.NUM, karg⟩]
              (LState.mk [] ([("x", .val ⟨.NUM, k⟩)] :: st) none)
            = (.ok ⟨.NUM, v⟩, LState.mk [] ([("x", .val ⟨.NUM, k⟩)] :: st) none)) :
    executeNode (f+3) (fibCallArg n) (LState.mk [] ([("x", .val ⟨.NUM, k⟩)] :: st) none)
      = (.ok ⟨.NUM, v⟩, LState.mk [] ([("x", .val ⟨.NUM, k⟩)] :: st) none) := by
  simp only [fibCallArg, exN3, executeNodeGo, executeCall, ParseNode.type,
    ParseNode.content, ParseNode.children, bindE_getS_apply, bindE_assoc,
    Option.isSome, ifFB]
  simp only [handlesHas, List.any, csGet, frameHas, frameGet,
    show (("x" == "fib") : Bool) = false from rfl, Bool.or_false, Bool.false_or,
    List.any_nil, List.find?, Option.map, if_false, ifFB, hfib]
  simp only [show jsSplitChar '(' (ParseNode.content fibFunc) = ["fib", "x)"] from rfl,
    List.get?, show strDropLast "x)" = "x" from rfl,
    show jsSplitChar ',' "x" = ["x"] from rfl, List.length]
  simp only [show ((1 : Nat) ≠ 1) = False by simp, if_false, reduceCtorEq, evalArgs,
    bindE_assoc]
  rw [bindE_ok (fibEvalSub f k n st)]
  simp only [bindE_pureE, harg]
  exact hinv

theorem fibEvalAdd (f : Nat) (k v1 v2 : String) (st : List Frame)
    (h1 : executeNode (f+3) (fibCallArg "1")
            (LState.mk [] ([("x", .val ⟨.NUM, k⟩)] :: st) none)
          = (.ok ⟨.NUM, v1⟩, LState.mk [] ([("x", .val ⟨.NUM, k⟩)] :: st) none))
    (h2 : executeNode (f+3) (fibCallArg "2")
            (LState.mk [] ([("x", .val ⟨.NUM, k⟩)] :: st) none)
          = (.ok ⟨.NUM, v2⟩, LState.mk [] ([("x", .val ⟨.NUM, k⟩)] :: st) none)) :
    executeNode (f+4) fibAdd (LState.mk [] ([("x", .val ⟨.NUM, k⟩)] :: st) none)
      = (.ok ⟨.NUM, printNum (JsNum.add (parseNum v1) (parseNum v2))⟩,
         LState.mk [] ([("x", .val ⟨.NUM, k⟩)] :: st) none) := by
  simp only [fibAdd, exN4, executeNodeGo, executeBinaryArith, ParseNode.type,
    ParseNode.children, childAt, List.get?, bindE_getS_apply, bindE_pureE,
    Option.isSome, ifFB]
  rw [bindE_ok h1]
  rw [bindE_ok h2]
  simp [pureE, nodeToBinaryOp]

theorem fibEvalRetAdd (f : Nat) (k w : String) (st : List Frame)
    (hadd : executeNode (f+4) fibAdd (LState.mk [] ([("x", .val ⟨.NUM, k⟩)] :: st) none)
            = (.ok ⟨.NUM, w⟩, LState.mk [] ([("x", .val ⟨.NUM, k⟩)] :: st) none)) :
    executeNode (f+5) fibRetAdd (LState.mk [] ([("x", .val ⟨.NUM, k⟩)] :: st) none)
      = (.ok ReturnValue.void,
         LState.mk [] ([("x", .val ⟨.NUM, k⟩)] :: st) (some ⟨.NUM, w⟩)) := by
  simp only [fibRetAdd, exN5, executeNodeGo, executeReturn, ParseNode.type,
    ParseNode.children, List.head?, bindE_getS_apply, bindE_assoc, Option.isSome, ifFB]
  rw [bindE_ok hadd]
  simp [modifyS, pureE, bindE]

theorem fibEvalIfTrue (f : Nat) (k : String) (st : List Frame) (u : ReturnValue) (s1 : LState)
    (hgt : JsNum.blt (parseNum "2") (parseNum k) = true)
    (hthen : executeNode (f+5) fibRetAdd (LState.mk [] ([("x", .val ⟨.NUM, k⟩)] :: st) none)
             = (.ok u, s1)) :
    executeNode (f+6) fibIf (LState.mk [] ([("x", .val ⟨.NUM, k⟩)] :: st) none)
      = (.ok ReturnValue.void, s1) := by
  have hg := fibEvalGt (f+3) k st
  rw [show f+3+2 = f+5 from by omega] at hg
  rw [hgt] at hg
  simp only [if_true] at hg
  simp only [fibIf, exN6, executeNodeGo, executeIf, ParseNode.type,
    ParseNode.children, childAt, List.get?, bindE_getS_apply, bindE_pureE, bindE_assoc,
    Option.isSome, ifFB]
  rw [bindE_ok hg]
  simp only [isTruthy, show (parseNum "1").isZero = false from rfl,
    Bool.and_false, Bool.not_false, ifTB]
  simp only [if_true, bindE_assoc]
  rw [bindE_ok hthen]
  simp [pureE, bindE]

theorem fibEvalIfFalse (f : Nat) (k : String) (st : List Frame)
    (hgt : JsNum.blt (parseNum "2") (parseNum k) = false) :
    executeNode (f+6) fibIf (LState.mk [] ([("x", .val ⟨.NUM, k⟩)] :: st) none)
      = (.ok ReturnValue.void, LState.mk [] ([("x", .val ⟨.NUM, k⟩)] :: st) none) := by
  have hg := fibEvalGt (f+3) k st
  rw [show f+3+2 = f+5 from by omega] at hg
  rw [hgt] at hg
  simp only [ifFB] at hg
  simp only [fibIf, exN6, executeNodeGo, executeIf, ParseNode.type,
    ParseNode.children, childAt, List.get?, bindE_getS_apply, bindE_pureE, bindE_assoc,
    Option.isSome, ifFB]
  rw [bindE_ok hg]
  simp only [isTruthy, show ((⟨.NUM, "0"⟩ : ReturnValue).type == ValueType.NUM) = true from rfl,
    show (parseNum "0").isZero = true from rfl]
  simp [pureE, bindE]

theorem fibEvalRet1 (f : Nat) (k : String) (st : List Frame) :
    executeNode (f+6) fibRet1 (LState.mk [] ([("x", .val ⟨.NUM, k⟩)] :: st) none)
      = (.ok ReturnValue.void,
         LState.mk [] ([("x", .val ⟨.NUM, k⟩)] :: st) (some ⟨.NUM, "1"⟩)) := by
  have hn := fibEvalNum (f+4) "1"
    (LState.mk [] ([("x", .val ⟨.NUM, k⟩)] :: st) none) rfl
  rw [show f+4+1 = f+5 from by omega] at hn
  simp only [fibRet1, exN6, executeNodeGo, executeReturn, ParseNode.type,
    ParseNode.children, List.head?, bindE_getS_apply, bindE_assoc, Option.isSome, ifFB]
  rw [bindE_ok hn]
  simp [modifyS, pureE, bindE]

theorem fibEvalBodyTrue (f : Nat) (k w : String) (st : List Frame)
    (hif : executeNode (f+6) fibIf (LState.mk [] ([("x", .val ⟨.NUM, k⟩)] :: st) none)
           = (.ok ReturnValue.void,
              LState.mk [] ([("x", .val ⟨.NUM, k⟩)] :: st) (some ⟨.NUM, w⟩))) :
    executeNode (f+7) fibBody (LState.mk [] ([("x", .val ⟨.NUM, k⟩)] :: st) none)
      = (.ok ReturnValue.void,
         LState.mk [] ([("x", .val ⟨.NUM, k⟩)] :: st) (some ⟨.NUM, w⟩)) := by
  have hnoop := noopReturned (f+5) fibRet1
    (LState.mk [] ([("x", .val ⟨.NUM, k⟩)] :: st) (some ⟨.NUM, w⟩)) ⟨.NUM, w⟩ rfl
  rw [show f+5+1 = f+6 from by omega] at hnoop
  simp only [fibBody, exN7, executeNodeGo, executeBlock, executeBlockGo, ParseNode.type,
    ParseNode.children, bindE_getS_apply, bindE_assoc, Option.isSome, ifFB]
  rw [bindE_ok hif]
  rw [bindE_ok hnoop]
  simp [pureE, bindE]

theorem fibEvalBodyFalse (f : Nat) (k : String) (st : List Frame)
    (hif : executeNode (f+6) fibIf (LState.mk [] ([("x", .val ⟨.NUM, k⟩)] :: st) none)
           = (.ok ReturnValue.void, LState.mk [] ([("x", .val ⟨.NUM, k⟩)] :: st) none)) :
    executeNode (f+7) fibBody (LState.mk [] ([("x", .val ⟨.NUM, k⟩)] :: st) none)
      = (.ok ReturnValue.void,
         LState.mk [] ([("x", .val ⟨.NUM, k⟩)] :: st) (some ⟨.NUM, "1"⟩)) := by
  simp only [fibBody, exN7, executeNodeGo, executeBlock, executeBlockGo, ParseNode.type,
    ParseNode.children, bindE_getS_apply, bindE_assoc, Option.isSome, ifFB]
  rw [bindE_ok hif]
  rw [bindE_ok (fibEvalRet1 f k st)]
  simp [pureE, bindE]

theorem fibInvoke (f : Nat) (k w : String) (st : List Frame)
    (hbody : executeNode (f+7) fibBody (LState.mk [] ([("x", .val ⟨.NUM, k⟩)] :: st) none)
             = (.ok ReturnValue.void,
                LState.mk [] ([("x", .val ⟨.NUM, k⟩)] :: st) (some ⟨.NUM, w⟩))) :
    executeCallInvoke (executeNode (f+7)) fibFunc ["x"] [⟨.NUM, k⟩]
        (LState.mk [] st none)
      = (.ok ⟨.NUM, w⟩, LState.mk [] st none) := by
  simp only [executeCallInvoke, bindE_modifyS_apply, bindE_assoc, bindE_pureE,
    bindParams, childAt, ParseNode.children, fibFunc, List.get?]
  simp only [pushFrame, popFrame, csSet, frameSet, frameHas, List.any_nil,
    List.nil_append, if_false, Bool.false_eq_true, List.tail]
  rw [bindE_ok hbody]
  simp [bindE, modifyS, getS, pureE, popFrame]

theorem fibOkBase (k : String)
    (hle : JsNum.blt (parseNum "2") (parseNum k) = false) : FibOk k "1" := by
  refine ⟨7, fun f hf st _hfib => ?_⟩
  obtain ⟨g, rfl⟩ : ∃ g, f = g + 7 := ⟨f - 7, by omega⟩
  exact fibInvoke g k "1" st (fibEvalBodyFalse g k st (fibEvalIfFalse g k st hle))

theorem fibOkStep (k k1 k2 v1 v2 v : String)
    (hgt : JsNum.blt (parseNum "2") (parseNum k) = true)
    (e1 : printNum (JsNum.sub (parseNum k) (parseNum "1")) = k1)
    (e2 : printNum (JsNum.sub (parseNum k) (parseNum "2")) = k2)
    (hv : printNum (JsNum.add (parseNum v1) (parseNum v2)) = v)
    (IH1 : FibOk k1 v1) (IH2 : FibOk k2 v2) : FibOk k v := by
  obtain ⟨a, hA⟩ := IH1
  obtain ⟨b, hB⟩ := IH2
  refine ⟨a + b + 7, fun f hf st hfib => ?_⟩
  obtain ⟨g, rfl⟩ : ∃ g, f = g + 7 := ⟨f - 7, by omega⟩
  have hfib2 : csGet ([("x", Binding.val ⟨.NUM, k⟩)] :: st) "fib" = some (.func fibFunc) := by
    simp only [csGet, frameHas, List.any, show (("x" == "fib") : Bool) = false from rfl,
      Bool.or_false, if_false, Bool.false_eq_true]
    exact hfib
  have c1 := fibEvalCall g k "1" k1 v1 st hfib e1 (hA (g+2) (by omega) _ hfib2)
  have c2 := fibEvalCall g k "2" k2 v2 st hfib e2 (hB (g+2) (by omega) _ hfib2)
  have hadd := fibEvalAdd g k v1 v2 st c1 c2
  rw [hv] at hadd
  exact fibInvoke g k v st
    (fibEvalBodyTrue g k v st (fibEvalIfTrue g k st _ _ hgt (fibEvalRetAdd g k v st hadd)))

theorem fibOk1 : FibOk "1" "1" := fibOkBase "1" rfl

theorem fibOk2 : FibOk "2" "1" := fibOkBase "2" rfl

theorem fibOk3 : FibOk "3" "2" := fibOkStep "3" "2" "1" "1" "1" "2" rfl rfl rfl rfl fibOk2 fibOk1

theorem fibOk4 : FibOk "4" "3" := fibOkStep "4" "3" "2" "2" "1" "3" rfl rfl rfl rfl fibOk3 fibOk2

theorem fibOk5 : FibOk "5" "5" := fibOkStep "5" "4" "3" "3" "2" "5" rfl rfl rfl rfl fibOk4 fibOk3

theorem fibOk6 : FibOk "6" "8" := fibOkStep "6" "5" "4" "5" "3" "8" rfl rfl rfl rfl fibOk5 fibOk4

theorem fibOk7 : FibOk "7" "13" := fibOkStep "7" "6" "5" "8" "5" "13" rfl rfl rfl rfl fibOk6 fibOk5

theorem fibOk8 : FibOk "8" "21" := fibOkStep "8" "7" "6" "13" "8" "21" rfl rfl rfl rfl fibOk7 fibOk6

theorem fibOk9 : FibOk "9" "34" := fibOkStep "9" "8" "7" "21" "13" "34" rfl rfl rfl rfl fibOk8 fibOk7

/-- Evaluating the call expression fib(n) (literal argument). -/
theorem fibEvalTopCall (f : Nat) (n v : String) (st : List Frame)
    (hfib : csGet st "fib" = some (.func fibFunc))
    (hinv : executeCallInvoke (executeNode (f+2)) fibFunc ["x"] [⟨.NUM, n⟩]
              (LState.mk [] st none)
            = (.ok ⟨.NUM, v⟩, LState.mk [] st none)) :
    executeNode (f+3) (fibTopCall n) (LState.mk [] st none)
      = (.ok ⟨.NUM, v⟩, LState.mk [] st none) := by
  simp only [fibTopCall, exN3, executeNodeGo, executeCall, ParseNode.type,
    ParseNode.content, ParseNode.children, bindE_getS_apply, bindE_assoc,
    Option.isSome, ifFB]
  simp only [handlesHas, List.any_nil, if_false, Bool.false_eq_true, hfib]
  simp only [show jsSplitChar '(' (ParseNode.content fibFunc) = ["fib", "x)"] from rfl,
    List.get?, show strDropLast "x)" = "x" from rfl,
    show jsSplitChar ',' "x" = ["x"] from rfl, List.length]
  simp only [show ((1 : Nat) ≠ 1) = False by simp, if_false, reduceCtorEq, evalArgs,
    bindE_assoc]
  rw [bindE_ok (fibEvalNum (f+1) n (LState.mk [] st none) rfl)]
  simp only [bindE_pureE]
  exact hinv

theorem fibLexParse :
    ∀ F : Nat, execute F fibProgram (initState []) =
      bindE (executeNode F fibRoot) (fun _ => pureE ()) (initState []) :=
  fun _ => rfl

theorem fibEvalDecl (f : Nat) :
    executeNode (f+1) fibFunc (initState [])
      = (.ok ReturnValue.void, fibGlobal) := by
  simp only [exN1, executeNodeGo, bindE_getS_apply, initState, Option.isSome, ifFB,
    show ParseNode.type fibFunc = .FUNCTION from rfl, registerFunction,
    show (jsSplitChar '(' (ParseNode.content fibFunc)).headD "" = "fib" from rfl,
    handlesHas, List.any_nil, bindE_assoc, bindE_modifyS_apply, if_false,
    Bool.false_eq_true, csSet, frameSet, frameHas, List.nil_append, fibGlobal]
  simp [bindE, pureE, modifyS, getS]

theorem fibEvalProgram (g : Nat)
    (hcall : executeNode (g+4) (fibTopCall "9") fibGlobal = (.ok ⟨.NUM, "34"⟩, fibGlobal)) :
    executeNode (g+5) fibRoot (initState []) = (.ok ReturnValue.void, fibGlobal) := by
  have hdecl := fibEvalDecl (g+3)
  rw [show g+3+1 = g+4 from by omega] at hdecl
  simp only [initState] at hdecl
  simp only [fibRoot, exN5, executeNodeGo, executeBlock, executeBlockGo, ParseNode.type,
    ParseNode.children, bindE_getS_apply, bindE_assoc, initState, Option.isSome, ifFB]
  rw [bindE_ok hdecl]
  rw [bindE_ok hcall]
  simp [pureE, bindE]

theorem fibGlobalGet : csGet [[("fib", Binding.func fibFunc)]] "fib"
    = some (.func fibFunc) := rfl

theorem fibNine : ∃ F : Nat,
    executeNode F (fibTopCall "9") fibGlobal = (.ok ⟨.NUM, "34"⟩, fibGlobal) := by
  obtain ⟨f0, h⟩ := fibOk9
  refine ⟨f0 + 3, ?_⟩
  show executeNode (f0+3) (fibTopCall "9") (LState.mk [] [[("fib", .func fibFunc)]] none)
    = (.ok ⟨.NUM, "34"⟩, LState.mk [] [[("fib", .func fibFunc)]] none)
  exact fibEvalTopCall f0 "9" "34" _ fibGlobalGet (h (f0+2) (by omega) _ fibGlobalGet)

theorem fibWhole : ∃ F : Nat,
    execute F fibProgram (initState []) = (.ok (), fibGlobal) := by
  obtain ⟨f0, h⟩ := fibOk9
  refine ⟨f0 + 5, ?_⟩
  rw [fibLexParse (f0+5)]
  have hcall : executeNode (f0+4) (fibTopCall "9") fibGlobal
      = (.ok ⟨.NUM, "34"⟩, fibGlobal) := by
    show executeNode (f0+1+3) (fibTopCall "9") (LState.mk [] [[("fib", .func fibFunc)]] none)
      = (.ok ⟨.NUM, "34"⟩, LState.mk [] [[("fib", .func fibFunc)]] none)
    exact fibEvalTopCall (f0+1) "9" "34" _ fibGlobalGet (h (f0+1+2) (by omega) _ fibGlobalGet)
  rw [bindE_ok (fibEvalProgram f0 hcall)]
  rfl

theorem fibOne : ∃ F : Nat,
    executeNode F (fibTopCall "1") fibGlobal = (.ok ⟨.NUM, "1"⟩, fibGlobal) := by
  obtain ⟨f0, h⟩ := fibOk1
  exact ⟨f0 + 3, fibEvalTopCall f0 "1" "1" _ fibGlobalGet (h (f0+2) (by omega) _ fibGlobalGet)⟩

theorem fibTwo : ∃ F : Nat,
    executeNode F (fibTopCall "2") fibGlobal = (.ok ⟨.NUM, "1"⟩, fibGlobal) := by
  obtain ⟨f0, h⟩ := fibOk2
  exact ⟨f0 + 3, fibEvalTopCall f0 "2" "1" _ fibGlobalGet (h (f0+2) (by omega) _ fibGlobalGet)⟩

theorem fibNoSemiParseError : ∀ F : Nat,
    execute F fibProgramNoSemi (initState []) = (.err "Unexpected token", initState []) :=
  fun _ => rfl

/-- C1: the spec says a compound += whose target value and right-hand
side are both STR concatenates and stores without error, and that a +=
with exactly one STR operand is fatal.  The code does the opposite: with
both operands STR it throws (its inner condition tests right.type for
equality with STR where the parallel executeBinaryArith tests
disequality), and with only the target STR it returns the concatenation
without error and without storing. -/
theorem c1_compound_add_strings :
    executeCompoundAssign (executeNode 10) c1NodeStr c1State
      = (.err "Cannot concatenate non-string and string", c1State)
    ∧ executeCompoundAssign (executeNode 10) c1NodeNum c1State
      = (.ok ⟨.STR, "a1"⟩, c1State) :=
  ⟨rfl, rfl⟩

/-- C2: calling a one-parameter function with one argument succeeds and
with two arguments is an arity error, as the claim says; but for a
zero-parameter function the stored signature splits into one empty
parameter name, so calling it with zero arguments is (wrongly) an arity
error as well. -/
theorem c2_arity_check :
    (execute 200 c2ZeroProg (initState [])).1
      = .err "Number of parameters does not match expected number"
    ∧ (execute 200 c2OneProg (initState [])).1 = .ok ()
    ∧ (execute 200 c2TwoProg (initState [])).1
      = .err "Number of parameters does not match expected number" :=
  ⟨rfl, rfl, rfl⟩

/-- C3 counterexample: a reachable state in which a call-stack frame
binds the name of a registered handle.  Parameter binding at function
entry performs no handle-name check: calling f(5) with handle h
registered binds h in the new frame, and after the body faults the frame
remains, so the resulting instance state violates the claimed
invariant. -/
theorem c3_counterexample :
    handlesHas c3State.handles "h" = true ∧ csHas c3State.callStack "h" = true :=
  ⟨rfl, rfl⟩

/-- C3 amended: function declaration and plain assignment refuse a
handle name with a RuntimeError and leave the state unchanged, but
parameter binding at function entry performs no such check, so a
reachable state can contain a frame binding named like a registered
handle. -/
theorem c3_amended_reservation :
    (∀ (node : ParseNode) (s : LState),
      handlesHas s.handles ((jsSplitChar '(' node.content).headD "") = true →
      registerFunction node s
        = (.err ("The name " ++ (jsSplitChar '(' node.content).headD ""
                  ++ " is reserved by a handle"), s))
    ∧ (∀ (f : Nat) (r : ParseNode) (s : LState) (name : String),
      handlesHas s.handles name = true →
      executeAssign (executeNode f) (.mk .ASSIGN "" [.mk .ID name [], r]) s
        = (.err ("The name " ++ name ++ " is reserved by a handle"), s))
    ∧ (handlesHas c3State.handles "h" = true ∧ csHas c3State.callStack "h" = true) := by
  refine ⟨?_, ?_, rfl, rfl⟩
  · intro node s h
    simp only [registerFunction, bindE_getS_apply, h, ifTB, throwE]
    simp [throwE]
  · intro f r s name h
    simp only [executeAssign, ParseNode.type, ParseNode.children, childAt, List.get?,
      bindE_pureE, ParseNode.content, show ((NodeType.ASSIGN != NodeType.ASSIGN) : Bool) = false
        from rfl, ifFB]
    rw [bindE_getS_apply]
    simp [h, throwE]

/-- C3 witness: the amended reservation applied at concrete inputs. -/
theorem c3_amended_witness :
    registerFunction (.mk .FUNCTION "h()" [.mk .BLOCK "" []])
        (LState.mk [("h", voidHandle)] [[]] none)
      = (.err "The name h is reserved by a handle", LState.mk [("h", voidHandle)] [[]] none)
    ∧ executeAssign (executeNode 5) (.mk .ASSIGN "" [.mk .ID "h" [], .mk .NUM "1" []])
        (LState.mk [("h", voidHandle)] [[]] none)
      = (.err "The name h is reserved by a handle", LState.mk [("h", voidHandle)] [[]] none) :=
  ⟨c3_amended_reservation.1 (.mk .FUNCTION "h()" [.mk .BLOCK "" []]) _ rfl,
   c3_amended_reservation.2.1 5 (.mk .NUM "1" []) _ "h" rfl⟩

/-- C4: once the pending-return value is set, every dispatch is a no-op
returning VOID and leaving the state (in particular the call stack)
unchanged; executing a top-level return leaves the value pending when
execute finishes, and a later execute call on the same state is a no-op:
y is never assigned. -/
theorem c4_toplevel_return :
    (∀ (f : Nat) (n : ParseNode) (s : LState) (w : ReturnValue),
      s.returnedValue = some w → executeNode (f+1) n s = (.ok ReturnValue.void, s))
    ∧ execute 200 c4Prog1 (initState []) = (.ok (), c4AfterState)
    ∧ (∀ f : Nat, execute (f+1) c4Prog2 c4AfterState = (.ok (), c4AfterState)) :=
  ⟨fun f n s w h => noopReturned f n s w h, rfl, fun _ => rfl⟩

/-- C4 witness: the no-op property applied at a concrete pending-return
state, together with the concrete runs. -/
theorem c4_toplevel_return_witness :
    executeNode 4 (.mk .NUM "7" []) c4AfterState = (.ok ReturnValue.void, c4AfterState) :=
  c4_toplevel_return.1 3 (.mk .NUM "7" []) c4AfterState ⟨.NUM, "5"⟩ rfl

/-- C5 counterexample: the program exactly as the spec writes it lacks
the semicolon the grammar requires after the expression statement
fib(9), so executing it raises a parse error and nothing is evaluated. -/
theorem c5_fib_counterexample :
    execute 200 fibProgramNoSemi (initState [])
      = (.err "Unexpected token", initState []) := rfl

/-- C5 amended: with the required semicolon added, executing the fib
program terminates successfully (a finite fuel suffices), the call
fib(9) evaluates to NUM 34, and the base cases fib(1) and fib(2) each
evaluate to NUM 1. -/
theorem c5_fib_evaluates :
    (∃ F : Nat, execute F fibProgram (initState []) = (.ok (), fibGlobal))
    ∧ (∃ F : Nat, executeNode F (fibTopCall "9") fibGlobal
        = (.ok ⟨.NUM, "34"⟩, fibGlobal))
    ∧ (∃ F : Nat, executeNode F (fibTopCall "1") fibGlobal
        = (.ok ⟨.NUM, "1"⟩, fibGlobal))
    ∧ (∃ F : Nat, executeNode F (fibTopCall "2") fibGlobal
        = (.ok ⟨.NUM, "1"⟩, fibGlobal)) :=
  ⟨fibWhole, fibNine, fibOne, fibTwo⟩

/-- C7: left-decided AND and OR do not evaluate the right operand (the
result is the same for every right operand and the state is the one
after the left operand alone); otherwise the right operand is evaluated
and decides the result; the result is always NUM 0 or NUM 1.  The
concrete program never invokes f: the whole program executes without
error, and the AND expression yields NUM 0. -/
theorem c7_short_circuit :
    (∀ (f : Nat) (l r : ParseNode) (s s1 : LState) (v : ReturnValue),
      executeNode f l s = (.ok v, s1) → isTruthy v = false →
      executeAndOr (executeNode f) (.mk .AND "" [l, r]) s = (.ok ⟨.NUM, "0"⟩, s1))
    ∧ (∀ (f : Nat) (l r : ParseNode) (s s1 : LState) (v : ReturnValue),
      executeNode f l s = (.ok v, s1) → isTruthy v = true →
      executeAndOr (executeNode f) (.mk .OR "" [l, r]) s = (.ok ⟨.NUM, "1"⟩, s1))
    ∧ (∀ (f : Nat) (l r : ParseNode) (s s1 s2 : LState) (v w : ReturnValue),
      executeNode f l s = (.ok v, s1) → isTruthy v = true →
      executeNode f r s1 = (.ok w, s2) →
      executeAndOr (executeNode f) (.mk .AND "" [l, r]) s
        = (.ok ⟨.NUM, if isTruthy w then "1" else "0"⟩, s2))
    ∧ (∀ (f : Nat) (l r : ParseNode) (s s1 s2 : LState) (v w : ReturnValue),
      executeNode f l s = (.ok v, s1) → isTruthy v = false →
      executeNode f r s1 = (.ok w, s2) →
      executeAndOr (executeNode f) (.mk .OR "" [l, r]) s
        = (.ok ⟨.NUM, if isTruthy w then "1" else "0"⟩, s2))
    ∧ execute 200 c7Prog (initState []) = (.ok (), c7Global)
    ∧ executeNode 50 c7AndNode c7Global = (.ok ⟨.NUM, "0"⟩, c7Global) := by
  refine ⟨?_, ?_, ?_, ?_, rfl, rfl⟩
  · intro f l r s s1 v hl hv
    simp only [executeAndOr, ParseNode.type, ParseNode.children, childAt, List.get?,
      bindE_pureE, bindE_assoc]
    rw [bindE_ok hl]
    simp [hv, pureE]
  · intro f l r s s1 v hl hv
    simp only [executeAndOr, ParseNode.type, ParseNode.children, childAt, List.get?,
      bindE_pureE, bindE_assoc]
    rw [bindE_ok hl]
    simp [hv, pureE]
  · intro f l r s s1 s2 v w hl hv hr
    simp only [executeAndOr, ParseNode.type, ParseNode.children, childAt, List.get?,
      bindE_pureE, bindE_assoc]
    rw [bindE_ok hl]
    simp only [hv, Bool.not_true, Bool.false_and, Bool.true_and, ifFB,
      show ((NodeType.AND == NodeType.OR) : Bool) = false from rfl, Bool.and_false]
    rw [bindE_ok hr]
    simp [pureE]
  · intro f l r s s1 s2 v w hl hv hr
    simp only [executeAndOr, ParseNode.type, ParseNode.children, childAt, List.get?,
      bindE_pureE, bindE_assoc]
    rw [bindE_ok hl]
    simp only [hv, Bool.not_false, Bool.false_and, Bool.true_and, ifFB,
      show ((NodeType.OR == NodeType.AND) : Bool) = false from rfl, Bool.and_false]
    rw [bindE_ok hr]
    simp [pureE]

/-- C7 witness: the short-circuit parts applied at concrete inputs. -/
theorem c7_short_circuit_witness :
    executeAndOr (executeNode 5) (.mk .AND "" [.mk .NUM "0" [], .mk .NUM "1" []])
        (initState []) = (.ok ⟨.NUM, "0"⟩, initState [])
    ∧ executeAndOr (executeNode 5) (.mk .AND "" [.mk .NUM "2" [], .mk .NUM "3" []])
        (initState []) = (.ok ⟨.NUM, "1"⟩, initState []) :=
  ⟨c7_short_circuit.1 5 (.mk .NUM "0" []) (.mk .NUM "1" []) (initState []) (initState [])
      ⟨.NUM, "0"⟩ (by rfl) (by rfl),
   by
    have h := c7_short_circuit.2.2.1 5 (.mk .NUM "2" []) (.mk .NUM "3" [])
      (initState []) (initState []) (initState []) ⟨.NUM, "2"⟩ ⟨.NUM, "3"⟩
      (by rfl) (by rfl) (by rfl)
    simpa using h⟩

/-- C8: CallStack.set rewrites only the topmost frame: the new stack is
the updated top frame consed on the unchanged tail, so every frame other
than the topmost is untouched; consequently the concrete program leaves
the global binding y at NUM 5. -/
theorem c8_set_topmost_only :
    (∀ (top : Frame) (rest : List Frame) (name : String) (v : Binding),
      csSet (top :: rest) name v = frameSet top name v :: rest)
    ∧ (∀ (stack : List Frame) (name : String) (v : Binding) (i : Nat),
      1 ≤ i → (csSet stack name v).get? i = stack.get? i)
    ∧ (execute 200 c8Prog (initState [])).1 = .ok ()
    ∧ csGet (execute 200 c8Prog (initState [])).2.callStack "y"
        = some (.val ⟨.NUM, "5"⟩) := by
  refine ⟨fun _ _ _ _ => rfl, ?_, rfl, rfl⟩
  intro stack name v i hi
  cases stack with
  | nil => rfl
  | cons top rest =>
    cases i with
    | zero => omega
    | succ j => rfl

/-- C8 witness: the frame-locality of set applied at a concrete stack
and index. -/
theorem c8_set_topmost_only_witness :
    (csSet [[("a", Binding.val ⟨.NUM, "1"⟩)], [("y", Binding.val ⟨.NUM, "5"⟩)]]
        "y" (Binding.val ⟨.NUM, "9"⟩)).get? 1
      = some [("y", Binding.val ⟨.NUM, "5"⟩)] := by
  rw [c8_set_topmost_only.2.1 _ "y" (Binding.val ⟨.NUM, "9"⟩) 1 (by omega)]
  rfl

/-- C9: equality and inequality compare the operand types first: on a
type mismatch the result is unconditionally not-equal (NUM 0 for ==,
NUM 1 for !=) with no error; on matching types NUM operands compare
numerically and STR operands textually, for == as well as for != (whose
result is the negation), always yielding NUM 0 or 1.  In particular
1 == "1" evaluates to NUM 0. -/
theorem c9_eq_compare :
    (∀ (f : Nat) (l r : ParseNode) (s s1 s2 : LState) (v1 v2 : ReturnValue),
      executeNode f l s = (.ok v1, s1) → executeNode f r s1 = (.ok v2, s2) →
      v1.type ≠ v2.type →
      executeEq (executeNode f) (.mk .EQ "" [l, r]) s = (.ok ⟨.NUM, "0"⟩, s2)
      ∧ executeEq (executeNode f) (.mk .NEQ "" [l, r]) s = (.ok ⟨.NUM, "1"⟩, s2))
    ∧ (∀ (f : Nat) (l r : ParseNode) (s s1 s2 : LState) (v1 v2 : ReturnValue),
      executeNode f l s = (.ok v1, s1) → executeNode f r s1 = (.ok v2, s2) →
      v1.type = .NUM → v2.type = .NUM →
      executeEq (executeNode f) (.mk .EQ "" [l, r]) s
        = (.ok ⟨.NUM, if JsNum.beq (parseNum v1.content) (parseNum v2.content)
                      then "1" else "0"⟩, s2))
    ∧ (∀ (f : Nat) (l r : ParseNode) (s s1 s2 : LState) (v1 v2 : ReturnValue),
      executeNode f l s = (.ok v1, s1) → executeNode f r s1 = (.ok v2, s2) →
      v1.type = .STR → v2.type = .STR →
      executeEq (executeNode f) (.mk .EQ "" [l, r]) s
        = (.ok ⟨.NUM, if v1.content == v2.content then "1" else "0"⟩, s2))
    ∧ (∀ (f : Nat) (l r : ParseNode) (s s1 s2 : LState) (v1 v2 : ReturnValue),
      executeNode f l s = (.ok v1, s1) → executeNode f r s1 = (.ok v2, s2) →
      v1.type = .NUM → v2.type = .NUM →
      executeEq (executeNode f) (.mk .NEQ "" [l, r]) s
        = (.ok ⟨.NUM, if JsNum.beq (parseNum v1.content) (parseNum v2.content)
                      then "0" else "1"⟩, s2))
    ∧ (∀ (f : Nat) (l r : ParseNode) (s s1 s2 : LState) (v1 v2 : ReturnValue),
      executeNode f l s = (.ok v1, s1) → executeNode f r s1 = (.ok v2, s2) →
      v1.type = .STR → v2.type = .STR →
      executeEq (executeNode f) (.mk .NEQ "" [l, r]) s
        = (.ok ⟨.NUM, if v1.content == v2.content then "0" else "1"⟩, s2))
    ∧ executeNode 10 c9Node (initState []) = (.ok ⟨.NUM, "0"⟩, initState []) := by
  refine ⟨?_, ?_, ?_, ?_, ?_, rfl⟩
  · intro f l r s s1 s2 v1 v2 h1 h2 hne
    have hb : (v1.type != v2.type) = true := by simp [bne_iff_ne, hne]
    constructor <;>
    · simp only [executeEq, ParseNode.type, ParseNode.children, childAt, List.get?,
        bindE_pureE, bindE_assoc]
      rw [bindE_ok h1]
      rw [bindE_ok h2]
      simp [hb, pureE]
  · intro f l r s s1 s2 v1 v2 h1 h2 ht1 ht2
    simp only [executeEq, ParseNode.type, ParseNode.children, childAt, List.get?,
      bindE_pureE, bindE_assoc]
    rw [bindE_ok h1]
    rw [bindE_ok h2]
    simp only [ht1, ht2, bne_self_eq_false, ifFB]
    cases hb : JsNum.beq (parseNum v1.content) (parseNum v2.content) <;>
      simp [pureE, hb]
  · intro f l r s s1 s2 v1 v2 h1 h2 ht1 ht2
    simp only [executeEq, ParseNode.type, ParseNode.children, childAt, List.get?,
      bindE_pureE, bindE_assoc]
    rw [bindE_ok h1]
    rw [bindE_ok h2]
    simp only [ht1, ht2, bne_self_eq_false, ifFB]
    cases hb : v1.content == v2.content <;> simp [pureE, hb]
  · intro f l r s s1 s2 v1 v2 h1 h2 ht1 ht2
    simp only [executeEq, ParseNode.type, ParseNode.children, childAt, List.get?,
      bindE_pureE, bindE_assoc]
    rw [bindE_ok h1]
    rw [bindE_ok h2]
    simp only [ht1, ht2, bne_self_eq_false, ifFB]
    cases hb : JsNum.beq (parseNum v1.content) (parseNum v2.content) <;>
      simp [pureE, hb]
  · intro f l r s s1 s2 v1 v2 h1 h2 ht1 ht2
    simp only [executeEq, ParseNode.type, ParseNode.children, childAt, List.get?,
      bindE_pureE, bindE_assoc]
    rw [bindE_ok h1]
    rw [bindE_ok h2]
    simp only [ht1, ht2, bne_self_eq_false, ifFB]
    cases hb : v1.content == v2.content <;> simp [pureE, hb]

/-- C9 witness: the type-mismatch part applied at the concrete operands
of 1 == "1", and the matched-NUM inequality part at 3 != 4. -/
theorem c9_eq_compare_witness :
    executeEq (executeNode 5) (.mk .EQ "" [.mk .NUM "1" [], .mk .STR "1" []])
        (initState []) = (.ok ⟨.NUM, "0"⟩, initState [])
    ∧ executeEq (executeNode 5) (.mk .NEQ "" [.mk .NUM "3" [], .mk .NUM "4" []])
        (initState []) = (.ok ⟨.NUM, "1"⟩, initState []) :=
  ⟨(c9_eq_compare.1 5 (.mk .NUM "1" []) (.mk .STR "1" []) (initState []) (initState [])
      (initState []) ⟨.NUM, "1"⟩ ⟨.STR, "1"⟩ (by rfl) (by rfl) (by simp)).1,
   by
    have h := c9_eq_compare.2.2.2.1 5 (.mk .NUM "3" []) (.mk .NUM "4" [])
      (initState []) (initState []) (initState []) ⟨.NUM, "3"⟩ ⟨.NUM, "4"⟩
      (by rfl) (by rfl) rfl rfl
    simpa using h⟩

/-! ## Claim C6 infrastructure: lexer termination -/
theorem mlcF_succ (f : Nat) (last : Option Char) (rem : List Char) :
    readMultilineCommentF (f+1) last rem =
      if last = some '*' ∧ rem.head? = some '/' then some rem.tail
      else
        match rem with
        | [] => readMultilineCommentF f none []
        | c :: rest => readMultilineCommentF f (some c) rest := rfl

/-- The fuel transcription of the multiline-comment loop never finishes
when the total companion reports divergence. -/
theorem readMultilineCommentF_none (fuel : Nat) :
    ∀ (last : Option Char) (rem : List Char),
    readMultilineComment last rem = none →
    readMultilineCommentF fuel last rem = none := by
  induction fuel with
  | zero => intro last rem _; rfl
  | succ f IH =>
    intro last rem h
    by_cases hc : last = some '*' ∧ rem.head? = some '/'
    · rw [readMultilineComment.eq_def] at h
      simp [hc] at h
    · rw [readMultilineComment.eq_def] at h
      rw [mlcF_succ]
      simp only [if_neg hc] at h ⊢
      cases rem with
      | nil => exact IH none [] rfl
      | cons c rest => exact IH (some c) rest h

/-- The fuel transcription reaches the same endpoint as the total
companion whenever the latter finds the closing marker. -/
theorem readMultilineCommentF_some :
    ∀ (rem : List Char) (last : Option Char) (out : List Char),
    readMultilineComment last rem = some out →
    ∃ fuel, readMultilineCommentF fuel last rem = some out := by
  intro rem
  induction rem with
  | nil =>
    intro last out h
    rw [readMultilineComment.eq_def] at h
    by_cases hc : last = some '*' ∧ ([] : List Char).head? = some '/'
    · simp at hc
    · simp [if_neg hc] at h
  | cons c rest IH =>
    intro last out h
    rw [readMultilineComment.eq_def] at h
    by_cases hc : last = some '*' ∧ (c :: rest).head? = some '/'
    · refine ⟨1, ?_⟩
      rw [show (1 : Nat) = 0 + 1 from rfl, mlcF_succ]
      simp only [if_pos hc] at h ⊢
      exact h
    · simp only [if_neg hc] at h
      obtain ⟨fuel, hf⟩ := IH (some c) out h
      refine ⟨fuel + 1, ?_⟩
      rw [mlcF_succ]
      simp only [if_neg hc]
      exact hf

/-- The total comment skipper only moves forward. -/
theorem readMultilineComment_length :
    ∀ (rem : List Char) (last : Option Char) (out : List Char),
    readMultilineComment last rem = some out → out.length < rem.length := by
  intro rem
  induction rem with
  | nil =>
    intro last out h
    rw [readMultilineComment.eq_def] at h
    by_cases hc : last = some '*' ∧ ([] : List Char).head? = some '/'
    · simp at hc
    · simp [if_neg hc] at h
  | cons c rest IH =>
    intro last out h
    rw [readMultilineComment.eq_def] at h
    by_cases hc : last = some '*' ∧ (c :: rest).head? = some '/'
    · simp only [if_pos hc] at h
      cases h
      simp
    · simp only [if_neg hc] at h
      have := IH (some c) out h
      simp only [List.length_cons]
      omega

theorem readIDCore_length : ∀ (rem : List Char), (readIDCore rem).2.length ≤ rem.length := by
  intro rem
  induction rem with
  | nil => simp [readIDCore]
  | cons c rest IH =>
    rw [readIDCore]
    rcases he : readIDCore rest with ⟨cs, r⟩
    rw [he] at IH
    simp only at IH
    by_cases hc : isIDChar c false = true
    · simp [hc, he]
      omega
    · simp [hc]

theorem readIDCore_consumes (c : Char) (rest : List Char) (h : isIDChar c false = true) :
    (readIDCore (c :: rest)).2.length ≤ rest.length := by
  rw [readIDCore]
  rcases he : readIDCore rest with ⟨cs, r⟩
  have hlen := readIDCore_length rest
  rw [he] at hlen
  simp only at hlen
  simp [h, he]
  exact hlen

theorem readID_snd (rem : List Char) : (readID rem).2 = (readIDCore rem).2 := by
  rw [readID]
  rcases he : readIDCore rem with ⟨cs, r⟩
  rcases hk : keywords (String.mk cs) with _ | t <;> simp [he, hk]

theorem readNumCore_length : ∀ (rem : List Char) (fd : Bool),
    (readNumCore fd rem).2.length ≤ rem.length := by
  intro rem
  induction rem with
  | nil => intro fd; simp [readNumCore]
  | cons c rest IH =>
    intro fd
    rw [readNumCore]
    by_cases h1 : isNumCh c = true
    · rcases he : readNumCore fd rest with ⟨cs, r⟩
      have hlen := IH fd
      rw [he] at hlen
      simp only at hlen
      simp [h1, he]
      omega
    · by_cases h2 : (!fd && c == '.') = true
      · rcases he : readNumCore true rest with ⟨cs, r⟩
        have hlen := IH true
        rw [he] at hlen
        simp only at hlen
        simp only [h1] at *
        simp [h2, he]
        omega
      · simp [h1, h2]

theorem readStringCore_lengthN : ∀ (n : Nat) (rem : List Char), rem.length ≤ n →
    ∀ (delim : Char) (cs out : List Char),
    readStringCore delim rem = .ok (cs, out) → out.length ≤ rem.length := by
  intro n
  induction n with
  | zero =>
    intro rem hn delim cs out h
    match rem, hn with
    | [], _ => simp [readStringCore] at h
  | succ n IH =>
    intro rem hn delim cs out h
    match rem with
    | [] => simp [readStringCore] at h
    | c :: rest =>
      rw [readStringCore.eq_def] at h
      by_cases h1 : (c == delim) = true
      · simp only [h1, if_true] at h
        cases h
        rfl
      · simp only [h1] at h
        by_cases h2 : (c == '\\') = true
        · simp only [h2, if_true, if_false, Bool.false_eq_true] at h
          cases rest with
          | nil => simp at h
          | cons d rest2 =>
            rcases hr : readStringCore delim rest2 with e | ⟨cs2, out2⟩
            · simp [hr] at h
            · simp only [hr, Except.ok.injEq, Prod.mk.injEq] at h
              obtain ⟨h3, h4⟩ := h
              subst h4
              have hrl : rest2.length ≤ n := by
                simp only [List.length_cons] at hn
                omega
              have hle := IH rest2 hrl delim cs2 out2 hr
              simp only [List.length_cons]
              omega
        · simp only [h2, if_false, Bool.false_eq_true] at h
          rcases hr : readStringCore delim rest with e | ⟨cs2, out2⟩ <;> rw [hr] at h
          · simp at h
          · simp only [Except.ok.injEq, Prod.mk.injEq] at h
            obtain ⟨h3, h4⟩ := h
            subst h4
            have hrl : rest.length ≤ n := by
              simp only [List.length_cons] at hn
              omega
            have hle := IH rest hrl delim cs2 out2 hr
            simp only [List.length_cons]
            omega

theorem readStringCore_length (rem : List Char) (delim : Char) (cs out : List Char)
    (h : readStringCore delim rem = .ok (cs, out)) : out.length ≤ rem.length :=
  readStringCore_lengthN rem.length rem (le_refl _) delim cs out h

theorem readSpecialCore_length : ∀ (rem : List Char) (content : String),
    (readSpecialCore content rem).2.length ≤ rem.length := by
  intro rem
  induction rem with
  | nil => intro content; simp [readSpecialCore]
  | cons c rest IH =>
    intro content
    rw [readSpecialCore]
    cases specialTokens (content.push c) with
    | none => simp
    | some t =>
      have := IH (content.push c)
      simp
      omega

theorem readSpecialCore_consumes (c : Char) (rest : List Char) (content' : String)
    (rem' : List Char) (h : readSpecialCore "" (c :: rest) = (content', rem'))
    (hne : content' ≠ "") : rem'.length ≤ rest.length := by
  rw [readSpecialCore] at h
  rcases hs : specialTokens (String.push "" c) with _ | t <;> rw [hs] at h <;> simp only at h
  · cases h
    exact absurd rfl hne
  · have hlen := readSpecialCore_length rest (String.push "" c)
    rw [h] at hlen
    exact hlen

theorem readLineComment_length : ∀ (rem : List Char),
    (readLineComment rem).length ≤ rem.length := by
  intro rem
  induction rem with
  | nil => simp [readLineComment]
  | cons c rest IH =>
    rw [readLineComment]
    by_cases hc : (c == '\n') = true
    · simp [hc]
    · simp [hc]
      omega

theorem isIDChar_mono (c : Char) (h : isIDChar c true = true) : isIDChar c false = true := by
  simp [isIDChar] at h ⊢
  tauto

theorem readNumCore_consumes (c : Char) (rest : List Char) (h : isNumCh c = true) :
    (readNumCore false (c :: rest)).2.length ≤ rest.length := by
  rw [readNumCore]
  rcases he : readNumCore false rest with ⟨cs, r⟩
  have hlen := readNumCore_length rest false
  rw [he] at hlen
  simp only at hlen
  simp [h, he]
  exact hlen

theorem lexGo_no_oof : ∀ (fuel : Nat) (rem : List Char) (acc : List Token),
    rem.length < fuel → (lexGo fuel rem acc).2 ≠ .oof := by
  intro fuel
  induction fuel with
  | zero => intro rem acc h; omega
  | succ f IH =>
    intro rem acc h
    rw [lexGo_succ]
    cases rem with
    | nil => simp [lexGoStep]
    | cons c rest =>
      have hlt : rest.length < f := by simp only [List.length_cons] at h; omega
      rw [lexGoStep]
      by_cases h1 : isIDChar c true = true
      · simp only [if_pos h1]
        rcases hi : readID (c :: rest) with ⟨t, rem'⟩
        have h2 : rem'.length ≤ rest.length := by
          have hsnd := readID_snd (c :: rest)
          rw [hi] at hsnd
          simp only at hsnd
          rw [hsnd]
          exact readIDCore_consumes c rest (isIDChar_mono c h1)
        simp only [hi]
        exact IH rem' (acc ++ [t]) (by omega)
      · by_cases h2 : isSpace c = true
        · simp only [if_neg h1, if_pos h2]
          exact IH rest acc hlt
        · by_cases h3 : isNumCh c = true
          · simp only [if_neg h1, if_neg h2, if_pos h3]
            rcases hn : readNumCore false (c :: rest) with ⟨cs, rem'⟩
            have hc := readNumCore_consumes c rest h3
            rw [hn] at hc
            simp only at hc
            simp only [hn]
            exact IH rem' (acc ++ [⟨.NUM, String.mk cs⟩]) (by omega)
          · by_cases h4 : (c == '\'' || c == '"') = true
            · simp only [if_neg h1, if_neg h2, if_neg h3, if_pos h4]
              rcases hs : readStringCore c rest with e | ⟨cs, rem'⟩ <;> simp only [hs]
              · simp
              · have hlen := readStringCore_length rest c cs rem' hs
                exact IH rem' (acc ++ [⟨.STR, String.mk cs⟩]) (by omega)
            · simp only [if_neg h1, if_neg h2, if_neg h3, if_neg h4]
              rcases hsp : readSpecialCore "" (c :: rest) with ⟨content, rem'⟩
              simp only [hsp]
              by_cases h5 : content = ""
              · simp only [if_pos h5]
                simp
              · simp only [if_neg h5]
                have hlen : rem'.length ≤ rest.length :=
                  readSpecialCore_consumes c rest content rem' hsp h5
                have hstep : rem'.length < f := by omega
                by_cases h6 : content = "//"
                · simp only [if_pos h6]
                  have := readLineComment_length rem'
                  exact IH (readLineComment rem') acc (by omega)
                · simp only [if_neg h6]
                  by_cases h7 : content = "/*"
                  · simp only [if_pos h7]
                    rcases hm : readMultilineComment none rem' with _ | rem2 <;>
                      simp only [hm]
                    · simp
                    · have := readMultilineComment_length rem' none rem2 hm
                      exact IH rem2 acc (by omega)
                  · simp only [if_neg h7]
                    rcases ht : specialTokens content with _ | t <;> try simp only [ht]
                    · simp
                    · cases t <;>
                        first
                          | exact IH rem' (acc ++ [⟨_, ""⟩]) hstep
                          | simp

/-- C6: the main loop of Lexer.read terminates on every input (with fuel
above the input length it never runs out), and the only way a scan does
not return is the multiline-comment loop: when no closing marker follows,
the fueled transcription of that loop returns nothing at every fuel, so
the source loop runs forever; when a closing marker follows, some fuel
completes it.  Concretely, an unterminated block comment diverges while an
unterminated string literal raises the fatal error "String not closed
before end of file". -/
theorem c6 :
    (∀ (fuel : Nat) (rem : List Char) (acc : List Token),
        rem.length < fuel → (lexGo fuel rem acc).2 ≠ .oof) ∧
    (∀ (last : Option Char) (rem : List Char),
        readMultilineComment last rem = none →
        ∀ fuel, readMultilineCommentF fuel last rem = none) ∧
    (∀ (last : Option Char) (rem : List Char) (out : List Char),
        readMultilineComment last rem = some out →
        ∃ fuel, readMultilineCommentF fuel last rem = some out) ∧
    (lexRead "/*").2 = .diverge [] ∧
    (lexRead "\"abc").2 = .err "String not closed before end of file" := by
  refine ⟨lexGo_no_oof, ?_, ?_, rfl, rfl⟩
  · intro last rem h fuel
    exact readMultilineCommentF_none fuel last rem h
  · intro last rem out h
    exact readMultilineCommentF_some rem last out h

/-- Witness for C6 at concrete inputs: fuel three suffices for the
two-character input, an unclosed comment body never finishes at any fuel,
and a closed one finishes at some fuel. -/
theorem c6_witness :
    (lexGo 3 ['/', '*'] []).2 ≠ .oof ∧
    readMultilineCommentF 7 none ['*'] = none ∧
    (∃ fuel, readMultilineCommentF fuel none ['*', '/'] = some []) :=
  ⟨c6.1 3 ['/', '*'] [] (by decide),
   c6.2.1 none ['*'] (by rfl) 7,
   c6.2.2.1 none ['*', '/'] [] (by rfl)⟩

theorem readIDCore_all : ∀ (cs rest : List Char),
    (∀ c ∈ cs, isIDChar c false = true) → stopsID rest = true →
    readIDCore (cs ++ rest) = (cs, rest) := by
  intro cs
  induction cs with
  | nil =>
    intro rest _ hs
    cases rest with
    | nil => rfl
    | cons d rest2 =>
      have hd : isIDChar d false = false := by
        simp only [stopsID, Bool.not_eq_true'] at hs
        exact hs
      rw [List.nil_append, readIDCore]
      simp [hd]
  | cons c tail IH =>
    intro rest hall hs
    have hc : isIDChar c false = true := hall c (List.mem_cons_self c tail)
    have := IH rest (fun d hd => hall d (List.mem_cons_of_mem c hd)) hs
    rw [List.cons_append, readIDCore]
    simp [hc, this]

theorem readID_all (cs rest : List Char) (hv : specValidID cs = true)
    (hs : stopsID rest = true) :
    readID (cs ++ rest) = (⟨.ID, String.mk cs⟩, rest) := by
  cases cs with
  | nil => simp [specValidID] at hv
  | cons c tail =>
    simp only [specValidID, Bool.and_eq_true, List.all_eq_true] at hv
    obtain ⟨⟨h1, h2⟩, h3⟩ := hv
    have hall : ∀ d ∈ c :: tail, isIDChar d false = true := by
      intro d hd
      rcases List.mem_cons.mp hd with h | h
      · rw [h]; exact isIDChar_mono c h1
      · exact h2 d h
    have hcore := readIDCore_all (c :: tail) rest hall hs
    rw [List.cons_append] at hcore
    rcases hk : keywords (String.mk (c :: tail)) with _ | t
    · simp [readID, hcore, hk]
    · rw [hk] at h3
      simp at h3

theorem readNumCore_all : ∀ (cs : List Char) (fd : Bool) (rest : List Char),
    specValidNumCore fd cs = true → stopsNum rest = true →
    readNumCore fd (cs ++ rest) = (cs, rest) := by
  intro cs
  induction cs with
  | nil =>
    intro fd rest _ hs
    cases rest with
    | nil => rfl
    | cons d rest2 =>
      simp only [stopsNum, Bool.and_eq_true, Bool.not_eq_true'] at hs
      rw [List.nil_append, readNumCore]
      simp [hs.1, hs.2]
  | cons c tail IH =>
    intro fd rest h hs
    rw [List.cons_append, readNumCore]
    by_cases hc : isNumCh c = true
    · simp only [specValidNumCore, hc, if_true] at h
      have := IH fd rest h hs
      simp [hc, this]
    · by_cases hdot : (!fd && c == '.') = true
      · simp only [specValidNumCore, hc, hdot, if_true, if_false,
          Bool.false_eq_true] at h
        have := IH true rest h hs
        simp [hc, hdot, this]
      · simp [specValidNumCore, hc, hdot] at h

theorem readStringCore_items : ∀ (items : List StrItem) (delim : Char)
    (rest : List Char), (delim == '\\') = false → strItemsOk delim items = true →
    readStringCore delim (strItemsRender items ++ delim :: rest) =
      .ok (items.map strItemUnescape, delim :: rest) := by
  intro items
  induction items with
  | nil =>
    intro delim rest _ _
    rw [strItemsRender, List.nil_append, readStringCore.eq_def]
    simp
  | cons i items2 IH =>
    intro delim rest hd hok
    simp only [strItemsOk, List.all_cons, Bool.and_eq_true] at hok
    obtain ⟨hi, hrest⟩ := hok
    have hIH := IH delim rest hd hrest
    cases i with
    | plain c =>
      simp only [strItemOk, Bool.and_eq_true, Bool.not_eq_true'] at hi
      rw [show strItemsRender (StrItem.plain c :: items2) =
            c :: strItemsRender items2 from rfl,
          List.cons_append, readStringCore.eq_def]
      simp [hi.1, hi.2, hIH, strItemUnescape]
    | esc c =>
      have h1 : ('\\' == delim) = false := by
        simp only [beq_eq_false_iff_ne] at hd ⊢
        exact fun h => hd h.symm
      rw [show strItemsRender (StrItem.esc c :: items2) =
            '\\' :: c :: strItemsRender items2 from rfl,
          List.cons_append, List.cons_append, readStringCore.eq_def]
      simp [h1, hIH, strItemUnescape]

/-- C10: lexing reconstructs literal text.  A valid identifier and a valid
number are lexed into tokens carrying the literal substring unchanged (the
identifier as an ID token unless it is a keyword, the number as the exact
digit-and-dot text); a string body is lexed into a token carrying the
original text after backslash-escape resolution, each escape resolved by
escapeChar.  Concretely, a small program lexes to tokens whose contents
are the original literals, the string content holding a real newline for
the two-character escape in the source text. -/
theorem c10 :
    (∀ (cs rest : List Char), specValidID cs = true → stopsID rest = true →
        readID (cs ++ rest) = (⟨.ID, String.mk cs⟩, rest)) ∧
    (∀ (cs rest : List Char), specValidNum cs = true → stopsNum rest = true →
        readNumCore false (cs ++ rest) = (cs, rest)) ∧
    (∀ (delim : Char) (items : List StrItem) (rest : List Char),
        (delim == '\\') = false → strItemsOk delim items = true →
        readStringCore delim (strItemsRender items ++ delim :: rest) =
          .ok (items.map strItemUnescape, delim :: rest)) ∧
    lexRead "ab1 12.5" = ([⟨.ID, "ab1"⟩, ⟨.NUM, "12.5"⟩], .ok) ∧
    (lexRead "x = \"a\\nb\"").1 =
      [⟨.ID, "x"⟩, ⟨.ASSIGN, ""⟩, ⟨.STR, "a\nb"⟩] := by
  refine ⟨readID_all, ?_, ?_, rfl, rfl⟩
  · intro cs rest hv hs
    cases cs with
    | nil => simp [specValidNum] at hv
    | cons c tail =>
      simp only [specValidNum, Bool.and_eq_true] at hv
      exact readNumCore_all (c :: tail) false rest hv.2 hs
  · intro delim items rest hd hok
    exact readStringCore_items items delim rest hd hok

/-- Witness for C10 at concrete literals: the identifier ab1, the number
12.5 and the string body a backslash-n, each followed by its stopper. -/
theorem c10_witness :
    readID (['a', 'b', '1'] ++ []) = (⟨.ID, String.mk ['a', 'b', '1']⟩, []) ∧
    readNumCore false (['1', '2', '.', '5'] ++ []) = (['1', '2', '.', '5'], []) ∧
    readStringCore '"'
        (strItemsRender [StrItem.plain 'a', StrItem.esc 'n'] ++ '"' :: []) =
      .ok ([StrItem.plain 'a', StrItem.esc 'n'].map strItemUnescape, '"' :: []) :=
  ⟨c10.1 ['a', 'b', '1'] [] rfl rfl,
   c10.2.1 ['1', '2', '.', '5'] [] rfl rfl,
   c10.2.2.1 '"' [StrItem.plain 'a', StrItem.esc 'n'] [] rfl rfl⟩

end Ladybug
